import Mathlib

/-!
Verification of the simulation core of the pixel-postman delivery game.

The definitions below are a shallow embedding of the TypeScript source
(`src/components/GameLoop.tsx`, the later of the two game-loop variants, and
`src/constants.ts`).  JavaScript numbers are modelled by the rationals `ℚ`
(exact real-number semantics), tile indices by `ℤ`, and every call to
`Math.random()` is replaced by an explicit oracle value handed to the
function, so that each definition is a pure, executable function of its
inputs.  `Math.sqrt` occurs in the source only inside comparisons
`getDistance(a, b) < r`; these are embedded as the equivalent comparison of
squares.  Render-only data that no game rule ever reads (sprite/`id` strings
of transient particles, the trigonometric outline points of puddles, colors)
is noted at its definition site.
-/

namespace PixelPostman

/-! ## Constants (src/constants.ts, later variant) -/

def TILE_SIZE : ℚ := 32
def MAP_WIDTH : ℤ := 50
def MAP_HEIGHT : ℤ := 30
def INITIAL_TIME : ℚ := 150
def PLAYER_SPEED : ℚ := 4
def BOOST_SPEED : ℚ := 8
def CAR_SPEED : ℚ := 3.5
def MAX_BOOST_CHARGE : ℕ := 4
def MAP_PIXEL_WIDTH : ℚ := (MAP_WIDTH : ℚ) * TILE_SIZE
def MAP_PIXEL_HEIGHT : ℚ := (MAP_HEIGHT : ℚ) * TILE_SIZE

/-! ## Basic data (src/types.ts) -/

/-- 2-D vector of JavaScript numbers. -/
structure Vector2 where
  x : ℚ
  y : ℚ
deriving DecidableEq, Repr

/-- The four cardinal facings used by player, cars and houses. -/
inductive Dir
  | up
  | down
  | left
  | right
deriving DecidableEq, Repr

/-- Tile kinds of the grid map. -/
inductive TileType
  | ROAD
  | GRASS
  | HOUSE
  | GARDEN
  | DRIVEWAY
  | FOOTPATH
  | WATER
deriving DecidableEq, Repr

/-- Traffic-AI car states. -/
inductive CarState
  | PARKED
  | MERGING
  | DRIVING
  | RETURNING
deriving DecidableEq, Repr

/-- Power-up kinds (later variant, including RAINCOAT). -/
inductive PowerUpType
  | COFFEE
  | TRAFFIC_LIGHT
  | CLOCK
  | RAINCOAT
deriving DecidableEq, Repr

/-- An axis-aligned box, the common `{pos, size}` shape of all entities. -/
structure Rect where
  pos : Vector2
  size : Vector2
deriving DecidableEq, Repr

/-- The grid map: `map[ty][tx]`, row-major, `MAP_HEIGHT` rows of
`MAP_WIDTH` tiles. -/
abbrev GameMap := List (List TileType)

/-- `map[ty][tx]` with JavaScript out-of-bounds semantics: an index outside
the array yields `undefined`, embedded as `none`. -/
def tileAt? (m : GameMap) (tx ty : ℤ) : Option TileType :=
  if 0 ≤ tx ∧ 0 ≤ ty then
    (m.get? ty.toNat).bind fun row => row.get? tx.toNat
  else none

/-- `Math.floor(Math.random() * n)`: the index drawn from a raw roll `q`. -/
def jsRandIdx (q : ℚ) (n : ℕ) : ℤ := Int.floor (q * (n : ℚ))

/-- A raw `Math.random()` value: always in `[0, 1)`. -/
def ValidRoll (q : ℚ) : Prop := 0 ≤ q ∧ q < 1

/-- Axis-aligned bounding-box overlap test (`checkCollision`). -/
def checkCollision (r1 r2 : Rect) : Bool :=
  decide (r1.pos.x < r2.pos.x + r2.size.x ∧
    r2.pos.x < r1.pos.x + r1.size.x ∧
    r1.pos.y < r2.pos.y + r2.size.y ∧
    r2.pos.y < r1.pos.y + r1.size.y)

/-- Embedding of the comparison `getDistance(p1, p2) < r` for `r ≥ 0`:
`Math.sqrt` is strictly monotone, so the source comparison holds exactly when
the squared distance is below `r²`. -/
def distLt (p1 p2 : Vector2) (r : ℚ) : Bool :=
  decide ((p2.x - p1.x) ^ 2 + (p2.y - p1.y) ^ 2 < r ^ 2)

/-- The four corner points of a box tested by `isWalkable`. -/
def cornerPoints (pos size : Vector2) : List Vector2 :=
  [ { x := pos.x, y := pos.y },
    { x := pos.x + size.x - 1, y := pos.y },
    { x := pos.x, y := pos.y + size.y - 1 },
    { x := pos.x + size.x - 1, y := pos.y + size.y - 1 } ]

/-- `isWalkable`: every corner of the box must project onto an in-bounds
tile of kind `ROAD`. -/
def isWalkable (pos size : Vector2) (m : GameMap) : Bool :=
  (cornerPoints pos size).all fun p =>
    let tx := Int.floor (p.x / TILE_SIZE)
    let ty := Int.floor (p.y / TILE_SIZE)
    if tx < 0 ∨ MAP_WIDTH ≤ tx ∨ ty < 0 ∨ MAP_HEIGHT ≤ ty then false
    else
      match tileAt? m tx ty with
      | some TileType.ROAD => true
      | _ => false

/-- One allowed traffic-flow option of a road tile. -/
structure Flow where
  x : ℤ
  y : ℤ
  d : Dir
deriving DecidableEq, Repr

/-- `getTrafficFlow`: right-hand traffic directionality.  Roads are 2 tiles
wide, so a tile column `tx` belongs to the vertical band starting at `v` when
`tx = v` or `tx = v + 1`; even band index (first match in the recorded list)
flows down, odd flows up; horizontal bands flow left on even, right on odd. -/
def getTrafficFlow (tx ty : ℤ) (vRoads hRoads : List ℤ) : List Flow :=
  let vFlows : List Flow :=
    match vRoads.findIdx? (fun v => tx == v || tx == v + 1) with
    | some i => if i % 2 = 0 then [{ x := 0, y := 1, d := Dir.down }]
                else [{ x := 0, y := -1, d := Dir.up }]
    | none => []
  let hFlows : List Flow :=
    match hRoads.findIdx? (fun h => ty == h || ty == h + 1) with
    | some i => if i % 2 = 0 then [{ x := -1, y := 0, d := Dir.left }]
                else [{ x := 1, y := 0, d := Dir.right }]
    | none => []
  vFlows ++ hFlows

/-- The hard-coded fallback coordinate of `getRandomRoadPosition`. -/
def fallbackRoadPos : Vector2 := { x := 64, y := 64 }

/-- One attempt body of `getRandomRoadPosition`; the oracle `tape` yields the
two `Math.random()` rolls of attempt number `attempt`. -/
def getRandomRoadPositionAux (m : GameMap) (entitySize : Vector2)
    (avoidEntities : List Rect) (tape : ℕ → ℚ × ℚ) :
    (attempt : ℕ) → (fuel : ℕ) → Vector2
  | _, 0 => fallbackRoadPos
  | attempt, fuel + 1 =>
    let q := tape attempt
    let tx := jsRandIdx q.1 MAP_WIDTH.toNat
    let ty := jsRandIdx q.2 MAP_HEIGHT.toNat
    if tileAt? m tx ty = some TileType.ROAD then
      let pos : Vector2 := { x := (tx : ℚ) * TILE_SIZE + 4, y := (ty : ℚ) * TILE_SIZE + 4 }
      if isWalkable pos entitySize m then
        if avoidEntities.any (fun ent => checkCollision { pos := pos, size := entitySize } ent) then
          getRandomRoadPositionAux m entitySize avoidEntities tape (attempt + 1) fuel
        else pos
      else getRandomRoadPositionAux m entitySize avoidEntities tape (attempt + 1) fuel
    else getRandomRoadPositionAux m entitySize avoidEntities tape (attempt + 1) fuel

/-- `getRandomRoadPosition`: bounded retry (1000 attempts) for a walkable,
collision-free road position; falls back to `(64, 64)` on exhaustion. -/
def getRandomRoadPosition (m : GameMap) (entitySize : Vector2)
    (avoidEntities : List Rect) (tape : ℕ → ℚ × ℚ) : Vector2 :=
  getRandomRoadPositionAux m entitySize avoidEntities tape 0 1000

/-! ## Entity records (src/types.ts; the TS `type : EntityType` discriminator
tag of each record is represented by the distinct Lean structure types). -/

/-- House shape: plain rectangle or L-shape with one corner removed. -/
inductive HouseShape
  | L
  | rect
deriving DecidableEq, Repr

/-- The removed corner of an L-shaped house. -/
inductive Corner
  | tl
  | tr
  | bl
  | br
deriving DecidableEq, Repr

structure House where
  id : String
  pos : Vector2
  size : Vector2
  facing : Dir
  isTarget : Bool
  doorPos : Vector2
  gardenPos : Vector2
  gardenSize : Vector2
  drivewayPos : Vector2
  drivewaySize : Vector2
  roofColor : String
  wallColor : String
  style : ℕ
  shape : HouseShape
  cutoutCorner : Option Corner
deriving DecidableEq, Repr

structure Car where
  id : String
  pos : Vector2
  size : Vector2
  velocity : Vector2
  speed : ℚ
  frozenTimer : ℚ
  direction : Dir
  state : CarState
  homePos : Vector2
deriving DecidableEq, Repr

structure Buffs where
  puddleImmunity : ℚ
deriving DecidableEq, Repr

structure Player where
  id : String
  pos : Vector2
  size : Vector2
  velocity : Vector2
  speed : ℚ
  isBoosting : Bool
  boostTimer : ℚ
  boostCharge : ℕ
  boostUnlocked : Bool
  frame : ℕ
  direction : Dir
  stunned : ℚ
  buffs : Buffs
  health : ℤ
  maxHealth : ℤ
  invulnerabilityTimer : ℚ
deriving DecidableEq, Repr

/-- A puddle hazard.  The TS record additionally carries `points`, a ring of
trigonometrically perturbed outline points used only by the renderer (hazard
contact is tested against `pos`/`size` alone); being render-only and built
from `Math.cos`/`Math.sin`, it is omitted from the embedding. -/
structure Puddle where
  id : String
  pos : Vector2
  size : Vector2
deriving DecidableEq, Repr

/-- A transient pickup.  The render-key `id` string (built from `Date.now()`
and `Math.random()`) is read by no game rule and is omitted. -/
structure PowerUp where
  kind : PowerUpType
  pos : Vector2
  size : Vector2
  life : ℚ
  maxLife : ℚ
deriving DecidableEq, Repr

/-- A cosmetic particle (render-key `id` omitted). -/
structure Particle where
  pos : Vector2
  size : Vector2
  velocity : Vector2
  life : ℚ
  color : String
deriving DecidableEq, Repr

/-- A floating text popup (render-key `id` omitted). -/
structure TextPopup where
  pos : Vector2
  size : Vector2
  text : String
  life : ℚ
  velocity : Vector2
  color : String
  fontSize : ℕ
deriving DecidableEq, Repr

/-- The thrown-parcel visual (render-key `id` omitted). -/
structure Projectile where
  pos : Vector2
  size : Vector2
  startPos : Vector2
  targetPos : Vector2
  progress : ℚ
  duration : ℚ
  arcHeight : ℚ
  rotation : ℚ
deriving DecidableEq, Repr

/-- A static decorative obstacle (a tree). -/
structure StaticObject where
  id : String
  pos : Vector2
  size : Vector2
deriving DecidableEq, Repr

structure Entities where
  player : Player
  houses : List House
  cars : List Car
  puddles : List Puddle
  powerups : List PowerUp
  particles : List Particle
  staticObjects : List StaticObject
  textPopups : List TextPopup
  projectiles : List Projectile
deriving DecidableEq, Repr

/-- The round state aggregate (the `state` ref plus the two companion refs
`gameOverReasonRef` and `prevDashRef`, embedded as the last two fields). -/
structure GameState where
  isPlaying : Bool
  isGameOver : Bool
  score : ℕ
  timer : ℚ
  deliveries : ℕ
  lastDeliveryTime : ℚ
  trafficPauseTimer : ℚ
  map : GameMap
  vRoads : List ℤ
  hRoads : List ℤ
  entities : Entities
  camera : Vector2
  gameOverReason : String
  prevDash : Bool
deriving DecidableEq, Repr

/-- The per-frame input sample: normalized direction plus the dash signal. -/
structure Input where
  x : ℚ
  y : ℚ
  dash : Bool
deriving DecidableEq, Repr

/-! ## Randomness oracles.  Every `Math.random()` call site of a tick reads a
named value (or stream, for call sites inside loops) of `TickOracle`; where an
index is drawn, the raw roll is kept and `jsRandIdx` applies the source's
`Math.floor(roll * n)`. -/

/-- The `Math.random()` draws of one car's turn of the car loop. -/
structure CarRolls where
  peel : ℚ
  choiceIdx : ℚ
  straight : ℚ
  hitText : ℚ
deriving Repr

/-- The `Math.random()` draws of one `update` tick. -/
structure TickOracle where
  spawnRoll : ℚ
  carPick : ℚ
  pupRoll : ℚ
  pupKind : ℚ
  pupPos : ℕ → ℚ × ℚ
  dashPartVel : ℕ → ℚ × ℚ
  splashText : ℚ
  targetTape : List ℚ
  deliverCarPick : ℚ
  projRotation : ℚ
  confettiVel : ℕ → ℕ → ℚ × ℚ
  carRolls : ℕ → CarRolls

/-! ## The tick (`update`, GameLoop.tsx lines 689-1137), decomposed into the
phases marked by the source's section comments.  External side effects
(audio calls, the `onScoreUpdate` snapshot emission) have no state effect and
are omitted where they occur. -/

/-- JavaScript `arr[i]` for a possibly negative or overflowing index:
out-of-range yields `undefined` (`none`). -/
def listGetZ? (l : List α) (i : ℤ) : Option α :=
  if 0 ≤ i then l.get? i.toNat else none

/-- `spawnTextPopup`: builds the popup record pushed onto `textPopups`. -/
def mkTextPopup (text : String) (pos : Vector2) (color : String) : TextPopup :=
  { pos := { x := pos.x, y := pos.y - 10 }, size := { x := 0, y := 0 },
    text := text, life := 1, velocity := { x := 0, y := -20 },
    color := color, fontSize := 16 }

/-- A random pick `texts[Math.floor(Math.random()*texts.length)]`; an
out-of-range roll would make JS render the string "undefined". -/
def pickText (texts : List String) (roll : ℚ) : String :=
  (listGetZ? texts (jsRandIdx roll texts.length)).getD "undefined"

/-- Positions (in the full car list) of the cars in `PARKED` state, i.e. the
identities of the elements of `cars.filter(c => c.state === PARKED)`. -/
def parkedIdxs (cars : List Car) : List ℕ :=
  (List.range cars.length).filter fun k =>
    match cars.get? k with
    | some c => c.state = CarState.PARKED
    | none => false

/-- The merge orientation chosen by `activateCar`: the first of
down/up/right/left whose neighboring tile is road, else unchanged. -/
def carMergeDirection (m : GameMap) (car : Car) : Dir :=
  let tileX := Int.floor (car.pos.x / TILE_SIZE)
  let tileY := Int.floor (car.pos.y / TILE_SIZE)
  if tileY + 1 < MAP_HEIGHT ∧ tileAt? m tileX (tileY + 1) = some TileType.ROAD then Dir.down
  else if 0 ≤ tileY - 1 ∧ tileAt? m tileX (tileY - 1) = some TileType.ROAD then Dir.up
  else if tileX + 1 < MAP_WIDTH ∧ tileAt? m (tileX + 1) tileY = some TileType.ROAD then Dir.right
  else if 0 ≤ tileX - 1 ∧ tileAt? m (tileX - 1) tileY = some TileType.ROAD then Dir.left
  else car.direction

/-- `activateCar`: pick a random parked car, set it `MERGING` (inheriting a
pending global traffic freeze), and orient it toward an adjacent road. -/
def activateCar (s : GameState) (pick : ℚ) : GameState :=
  let idxs := parkedIdxs s.entities.cars
  if idxs.length > 0 then
    match listGetZ? idxs (jsRandIdx pick idxs.length) with
    | some k =>
      match s.entities.cars.get? k with
      | some car =>
        let car := { car with state := CarState.MERGING }
        let car := if s.trafficPauseTimer > 0 then { car with frozenTimer := s.trafficPauseTimer } else car
        let car := { car with direction := carMergeDirection s.map car }
        { s with entities.cars := s.entities.cars.set k car }
      | none => s
    | none => s
  else s

/-- The power-up kind pool of the spawn roll. -/
def powerupKinds : List PowerUpType :=
  [PowerUpType.COFFEE, PowerUpType.TRAFFIC_LIGHT, PowerUpType.CLOCK, PowerUpType.RAINCOAT]

/-- Power-up spawning (update lines 716-731): small chance per tick, capped
at 5 concurrent, placed by `getRandomRoadPosition` avoiding puddles.  (On an
out-of-range kind roll JS would push an inert record whose `kind` is
`undefined` and which no pickup case matches; that unreachable-for-
`Math.random` branch spawns nothing here.) -/
def spawnPowerupPhase (s : GameState) (o : TickOracle) : GameState :=
  if o.pupRoll < 0.005 ∧ s.entities.powerups.length < 5 then
    match listGetZ? powerupKinds (jsRandIdx o.pupKind powerupKinds.length) with
    | some kind =>
      let pos := getRandomRoadPosition s.map { x := 16, y := 16 }
        (s.entities.puddles.map fun pud => { pos := pud.pos, size := pud.size }) o.pupPos
      { s with entities.powerups := s.entities.powerups ++
          [{ kind := kind, pos := pos, size := { x := 16, y := 16 }, life := 10, maxLife := 10 }] }
    | none => s
  else s

/-- `checkMove` (update lines 782-789): tile walkability plus no overlap with
any static obstacle. -/
def checkMove (nextPos size : Vector2) (m : GameMap) (staticObjects : List StaticObject) : Bool :=
  isWalkable nextPos size m &&
    !(staticObjects.any fun obj => checkCollision { pos := nextPos, size := size } { pos := obj.pos, size := obj.size })

/-- The five white burst particles of a dash trigger. -/
def dashParticles (pos : Vector2) (vel : ℕ → ℚ × ℚ) : List Particle :=
  (List.range 5).map fun i =>
    let v := vel i
    { pos := pos, size := { x := 4, y := 4 },
      velocity := { x := (v.1 - 0.5) * 50, y := (v.2 - 0.5) * 50 },
      life := 0.5, color := "#ffffff" }

def splashTexts : List String := ["SPLASH!", "WET SOCKS!", "SLIPPERY!"]

def hitTexts : List String := ["OUCH!", "CRASH!", "BEEP BEEP!", "HEY!"]

/-- Result of the player-movement phase; `died` embeds the source's early
`return` after a fatal puddle hit. -/
structure PlayerPhaseOut where
  player : Player
  prevDash : Bool
  newParticles : List Particle
  newPopups : List TextPopup
  died : Bool
deriving Repr

/-- Facing update, boost trigger and boost decay of the non-stunned player
(update lines 754-780); no position change happens here.  Returns the
steered player and the dash particles. -/
def steerPlayer (prevDash : Bool) (p : Player) (dt : ℚ) (input : Input) (o : TickOracle) :
    Player × List Particle :=
  let p := if |input.x| > 0.1 then
      { p with direction := if input.x > 0 then Dir.right else Dir.left } else p
  let p := if |input.y| > 0.1 then
      { p with direction := if input.y > 0 then Dir.down else Dir.up } else p
  let isDashTriggered := input.dash ∧ ¬prevDash
  let pp : Player × List Particle :=
    if isDashTriggered ∧ 1 ≤ p.boostCharge ∧ ¬p.isBoosting then
      ({ p with boostCharge := p.boostCharge - 1, isBoosting := true, boostTimer := 0.5 },
       dashParticles p.pos o.dashPartVel)
    else (p, [])
  let p := pp.1
  let parts := pp.2
  let p := if p.isBoosting then
      let bt := p.boostTimer - dt
      if bt ≤ 0 then { p with boostTimer := bt, isBoosting := false }
      else { p with boostTimer := bt }
    else p
  (p, parts)

/-- The two axis-separated test-and-commit moves (update lines 791-795). -/
def commitMoves (m : GameMap) (so : List StaticObject) (p : Player)
    (desiredX desiredY : ℚ) : Player :=
  let nextPos1 : Vector2 := { x := p.pos.x + desiredX, y := p.pos.y }
  let p := if checkMove nextPos1 p.size m so then { p with pos := nextPos1 } else p
  let nextPos2 : Vector2 := { x := p.pos.x, y := p.pos.y + desiredY }
  if checkMove nextPos2 p.size m so then { p with pos := nextPos2 } else p

/-- Movement resolution of the non-stunned player (update lines 740-795):
the desired displacement is scaled by the pre-steering boost state, then the
steered player commits each axis independently. -/
def movePlayer (m : GameMap) (so : List StaticObject)
    (prevDash : Bool) (p : Player) (dt : ℚ) (input : Input) (o : TickOracle) :
    Player × List Particle :=
  let currentSpeed := if p.isBoosting then BOOST_SPEED else p.speed
  let desiredX := input.x * currentSpeed
  let desiredY := input.y * currentSpeed
  let sp := steerPlayer prevDash p dt input o
  (commitMoves m so sp.1 desiredX desiredY, sp.2)

/-- Puddle-hazard contact (update lines 797-818): one damage point unless
boosting, immune, or still invulnerable; the third component embeds the
source's fatal early `return`. -/
def puddleHazard (puddles : List Puddle) (splashRoll : ℚ) (p : Player) :
    Player × List TextPopup × Bool :=
  let inPuddle := puddles.any fun pud =>
    checkCollision { pos := p.pos, size := p.size } { pos := pud.pos, size := pud.size }
  if inPuddle ∧ ¬p.isBoosting ∧ p.buffs.puddleImmunity ≤ 0 ∧ p.invulnerabilityTimer ≤ 0 then
    let p := { p with health := p.health - 1, invulnerabilityTimer := 2 }
    (p, [mkTextPopup (pickText splashTexts splashRoll) p.pos "#639bff"],
     decide (p.health ≤ 0))
  else (p, [], false)

/-- Player movement, boost trigger, axis-separated collision resolution and
puddle-hazard contact (update lines 733-819). -/
def playerPhase (m : GameMap) (staticObjects : List StaticObject) (puddles : List Puddle)
    (prevDash : Bool) (p : Player) (dt : ℚ) (input : Input) (o : TickOracle) : PlayerPhaseOut :=
  if p.stunned > 0 then
    { player := { p with stunned := p.stunned - dt, velocity := { x := 0, y := 0 } },
      prevDash := prevDash, newParticles := [], newPopups := [], died := false }
  else
    let mv := movePlayer m staticObjects prevDash p dt input o
    let hz := puddleHazard puddles o.splashText mv.1
    { player := hz.1, prevDash := input.dash, newParticles := mv.2,
      newPopups := hz.2.1, died := hz.2.2 }

/-- Decay of the invulnerability and puddle-immunity timers (update lines
821-825), skipped by the source's fatal-puddle early return. -/
def timersDecayPhase (p : Player) (dt : ℚ) : Player :=
  let p := if p.invulnerabilityTimer > 0 then
      { p with invulnerabilityTimer := p.invulnerabilityTimer - dt } else p
  if p.buffs.puddleImmunity > 0 then
    { p with buffs := { puddleImmunity := p.buffs.puddleImmunity - dt } } else p

/-- The `while (nextHouse === targetHouse)` redraw loop of the delivery
logic: the first drawn index that denotes a house other than the old target.
`none` models the loop running past the drawn tape (with a single house the
source loop never exits). -/
def findNewTargetIdx (tape : List ℚ) (n : ℕ) (oldIdx : ℕ) : Option ℤ :=
  (tape.map fun r => jsRandIdx r n).find? fun j => j ≠ (oldIdx : ℤ)

/-- Delivery resolution (update lines 827-867): within radius 80 of the
target's door, score +1, chained time bonus capped at `INITIAL_TIME`, parcel
projectile, retarget to a different house, and a traffic-AI trigger.
`none` embeds a tick that does not complete (retarget loop never exiting the
drawn tape, or JS dereferencing `houses[j]` for an out-of-range draw). -/
def deliveryPhase (s : GameState) (now : ℚ) (o : TickOracle) : Option GameState :=
  match s.entities.houses.findIdx? (·.isTarget) with
  | none => some s
  | some i =>
    match s.entities.houses.get? i with
    | none => some s
    | some targetHouse =>
      let p := s.entities.player
      if distLt p.pos targetHouse.doorPos 80 then
        let s := { s with score := s.score + 1, deliveries := s.deliveries + 1 }
        let s := { s with entities.textPopups := s.entities.textPopups ++
            [mkTextPopup "DELIVERED!" targetHouse.doorPos "#fbf236"] }
        let timeSinceLast := now / 1000 - s.lastDeliveryTime
        let bonusTime : ℚ := if timeSinceLast < 5 then 2 + 2 else 2
        let s := { s with timer := min (s.timer + bonusTime) INITIAL_TIME,
                          lastDeliveryTime := now / 1000 }
        let proj : Projectile :=
          { pos := { x := p.pos.x + 7, y := p.pos.y + 7 },
            size := { x := 8, y := 5 },
            startPos := { x := p.pos.x + 7, y := p.pos.y + 7 },
            targetPos := { x := targetHouse.doorPos.x + 6, y := targetHouse.doorPos.y + 6 },
            progress := 0, duration := 0.3, arcHeight := 25,
            -- the source stores `Math.random() * Math.PI * 2`, a render-only
            -- spin phase; the raw roll stands in for it
            rotation := o.projRotation }
        let s := { s with entities.projectiles := s.entities.projectiles ++ [proj] }
        let s := { s with entities.houses := s.entities.houses.set i { targetHouse with isTarget := false } }
        match findNewTargetIdx o.targetTape s.entities.houses.length i with
        | none => none
        | some j =>
          match listGetZ? s.entities.houses j with
          | none => none
          | some nextHouse =>
            let s := { s with entities.houses := s.entities.houses.set j.toNat { nextHouse with isTarget := true } }
            some (activateCar s o.deliverCarPick)
      else some s

/-- Parcel-projectile flight advance for one tick. -/
def projectileStep (proj : Projectile) (dt : ℚ) : Projectile :=
  { proj with progress := proj.progress + dt / proj.duration,
              rotation := proj.rotation + dt * 10 }

/-- The ten confetti particles spawned when a parcel lands. -/
def confettiFor (targetPos : Vector2) (vel : ℕ → ℚ × ℚ) : List Particle :=
  (List.range 10).map fun i =>
    let v := vel i
    { pos := targetPos, size := { x := 3, y := 3 },
      velocity := { x := (v.1 - 0.5) * 100, y := (v.2 - 0.5) * 100 - 50 },
      life := 1, color := "#fbf236" }

/-- Projectile advance-and-prune (update lines 869-888): landed parcels are
removed and burst into confetti. -/
def projectilesPhase (projs : List Projectile) (dt : ℚ) (cv : ℕ → ℕ → ℚ × ℚ) :
    List Projectile × List Particle :=
  let stepped := projs.enum.map fun kp => (kp.1, projectileStep kp.2 dt)
  ((stepped.filter fun kp => decide (kp.2.progress < 1)).map Prod.snd,
   ((stepped.filter fun kp => decide (1 ≤ kp.2.progress)).map fun kp =>
      confettiFor kp.2.targetPos (cv kp.1)).flatten)

/-- The local `isRoad` closure of the DRIVING block. -/
def isRoadAt (m : GameMap) (tx ty : ℤ) : Bool :=
  if tx < 0 ∨ MAP_WIDTH ≤ tx ∨ ty < 0 ∨ MAP_HEIGHT ≤ ty then false
  else decide (tileAt? m tx ty = some TileType.ROAD)

/-- The flow options a DRIVING car may take from its tile: the next tile must
be road, and a turning option needs road for two tiles ahead. -/
def validDrivingOptions (m : GameMap) (vR hR : List ℤ) (tileX tileY : ℤ) (dir : Dir) : List Flow :=
  (getTrafficFlow tileX tileY vR hR).filter fun flow =>
    let tx := tileX + flow.x
    let ty := tileY + flow.y
    if ¬ isRoadAt m tx ty then false
    else if flow.d ≠ dir then isRoadAt m (tx + flow.x) (ty + flow.y)
    else true

/-- The direct reverse of a heading. -/
def reverseOf : Dir → Dir
  | Dir.left => Dir.right
  | Dir.right => Dir.left
  | Dir.up => Dir.down
  | Dir.down => Dir.up

/-- Neighbor scan order of the driveway peel-off branch. -/
def drivewayNeighbors : List (ℤ × ℤ × Dir) :=
  [(1, 0, Dir.right), (-1, 0, Dir.left), (0, 1, Dir.down), (0, -1, Dir.up)]

/-- The first in-bounds DRIVEWAY neighbor of a tile, if any. -/
def findDrivewayNeighbor (m : GameMap) (tileX tileY : ℤ) : Option (ℤ × ℤ × Dir) :=
  drivewayNeighbors.find? fun n =>
    let nx := tileX + n.1
    let ny := tileY + n.2.1
    decide (0 ≤ nx ∧ nx < MAP_WIDTH ∧ 0 ≤ ny ∧ ny < MAP_HEIGHT) &&
      decide (tileAt? m nx ny = some TileType.DRIVEWAY)

/-- The centre of a car's bounding box. -/
def carCenter (car : Car) : Vector2 :=
  { x := car.pos.x + car.size.x / 2, y := car.pos.y + car.size.y / 2 }

/-- The tile column under a car's centre (`tileX` of the DRIVING block). -/
def carTileX (car : Car) : ℤ := Int.floor ((carCenter car).x / TILE_SIZE)

/-- The tile row under a car's centre (`tileY` of the DRIVING block). -/
def carTileY (car : Car) : ℤ := Int.floor ((carCenter car).y / TILE_SIZE)

/-- `distToCenter` of the DRIVING block: Manhattan distance of the car's
centre from its tile's centre. -/
def carDistToCenter (car : Car) : ℚ :=
  |(carCenter car).x - ((carTileX car : ℚ) * TILE_SIZE + TILE_SIZE / 2)| +
    |(carCenter car).y - ((carTileY car : ℚ) * TILE_SIZE + TILE_SIZE / 2)|

/-- Result of one car's turn of the car loop; `halted` embeds the source's
early `return` after a fatal car hit. -/
structure CarStepOut where
  car : Car
  player : Player
  newPopups : List TextPopup
  halted : Bool
deriving Repr

/-- Common tail of the DRIVING block: advance along velocity, hard-reset to
home on leaving the map, then player-contact resolution. -/
def carAdvance (p : Player) (car : Car) (hitRoll : ℚ) : CarStepOut :=
  let car := { car with pos := { x := car.pos.x + car.velocity.x, y := car.pos.y + car.velocity.y } }
  let car :=
    if car.pos.x < 0 ∨ car.pos.x > MAP_PIXEL_WIDTH ∨ car.pos.y < 0 ∨ car.pos.y > MAP_PIXEL_HEIGHT then
      { car with state := CarState.PARKED, pos := car.homePos, velocity := { x := 0, y := 0 } }
    else car
  if checkCollision { pos := p.pos, size := p.size } { pos := car.pos, size := car.size } ∧
      p.stunned ≤ 0 ∧ ¬p.isBoosting ∧ p.invulnerabilityTimer ≤ 0 then
    let p := { p with health := p.health - 1, invulnerabilityTimer := 2 }
    { car := car, player := p,
      newPopups := [mkTextPopup (pickText hitTexts hitRoll) p.pos "#ff4d4d"],
      halted := decide (p.health ≤ 0) }
  else
    { car := car, player := p, newPopups := [], halted := false }

/-- Player-contact resolution of a MERGING car (update lines 948-960). -/
def mergeHit (p : Player) (car : Car) (hitRoll : ℚ) : CarStepOut :=
  if checkCollision { pos := p.pos, size := p.size } { pos := car.pos, size := car.size } ∧
      ¬p.isBoosting ∧ p.invulnerabilityTimer ≤ 0 then
    let p := { p with health := p.health - 1, invulnerabilityTimer := 2 }
    { car := car, player := p,
      newPopups := [mkTextPopup (pickText hitTexts hitRoll) p.pos "#ff4d4d"],
      halted := decide (p.health ≤ 0) }
  else
    { car := car, player := p, newPopups := [], halted := false }

/-- One car's turn of the car loop (update lines 891-1078): freeze handling,
then the per-state machine. -/
def carStep (m : GameMap) (vR hR : List ℤ) (p : Player) (car : Car) (dt : ℚ) (r : CarRolls) :
    CarStepOut :=
  if car.frozenTimer > 0 then
    { car := { car with frozenTimer := car.frozenTimer - dt }, player := p, newPopups := [], halted := false }
  else if car.state = CarState.PARKED then
    { car := car, player := p, newPopups := [], halted := false }
  else if car.state = CarState.RETURNING then
    let tx := Int.floor ((car.pos.x + car.size.x / 2) / TILE_SIZE)
    let ty := Int.floor ((car.pos.y + car.size.y / 2) / TILE_SIZE)
    if tileAt? m tx ty = some TileType.DRIVEWAY then
      let speed := car.speed * 0.5
      let car :=
        match car.direction with
        | Dir.right => { car with pos := { x := car.pos.x + speed, y := car.pos.y } }
        | Dir.left => { car with pos := { x := car.pos.x - speed, y := car.pos.y } }
        | Dir.up => { car with pos := { x := car.pos.x, y := car.pos.y - speed } }
        | Dir.down => { car with pos := { x := car.pos.x, y := car.pos.y + speed } }
      let nextTx := Int.floor ((car.pos.x + car.size.x / 2 +
        (if car.direction = Dir.right then speed * 5 else if car.direction = Dir.left then -(speed * 5) else 0)) / TILE_SIZE)
      let nextTy := Int.floor ((car.pos.y + car.size.y / 2 +
        (if car.direction = Dir.down then speed * 5 else if car.direction = Dir.up then -(speed * 5) else 0)) / TILE_SIZE)
      if nextTx < 0 ∨ MAP_WIDTH ≤ nextTx ∨ nextTy < 0 ∨ MAP_HEIGHT ≤ nextTy ∨
          ¬ (tileAt? m nextTx nextTy = some TileType.DRIVEWAY) then
        { car := { car with state := CarState.PARKED }, player := p, newPopups := [], halted := false }
      else
        { car := car, player := p, newPopups := [], halted := false }
    else
      { car := { car with pos := { x := car.pos.x + car.velocity.x, y := car.pos.y + car.velocity.y } },
        player := p, newPopups := [], halted := false }
  else if car.state = CarState.MERGING then
    let speed := car.speed * 0.5
    let car :=
      match car.direction with
      | Dir.down => { car with pos := { x := car.pos.x, y := car.pos.y + speed } }
      | Dir.up => { car with pos := { x := car.pos.x, y := car.pos.y - speed } }
      | Dir.left => { car with pos := { x := car.pos.x - speed, y := car.pos.y } }
      | Dir.right => { car with pos := { x := car.pos.x + speed, y := car.pos.y } }
    let cx := car.pos.x + car.size.x / 2
    let cy := car.pos.y + car.size.y / 2
    let tx := Int.floor (cx / TILE_SIZE)
    let ty := Int.floor (cy / TILE_SIZE)
    let car :=
      if 0 ≤ tx ∧ tx < MAP_WIDTH ∧ 0 ≤ ty ∧ ty < MAP_HEIGHT ∧ tileAt? m tx ty = some TileType.ROAD then
        let car := { car with
                     state := CarState.DRIVING,
                     pos := { x := (tx : ℚ) * TILE_SIZE + (TILE_SIZE - car.size.x) / 2,
                              y := (ty : ℚ) * TILE_SIZE + (TILE_SIZE - car.size.y) / 2 } }
        match (getTrafficFlow tx ty vR hR).head? with
        | some bestFlow =>
          { car with
            direction := bestFlow.d,
            velocity := { x := (bestFlow.x : ℚ) * car.speed, y := (bestFlow.y : ℚ) * car.speed } }
        | none => car
      else car
    mergeHit p car r.hitText
  else
    -- DRIVING
    let tileX := carTileX car
    let tileY := carTileY car
    let targetCenterX := (tileX : ℚ) * TILE_SIZE + TILE_SIZE / 2
    let targetCenterY := (tileY : ℚ) * TILE_SIZE + TILE_SIZE / 2
    if carDistToCenter car < car.speed then
      let peeled : Option Car :=
        if r.peel < 0.1 then
          match findDrivewayNeighbor m tileX tileY with
          | some n =>
            some { car with
              state := CarState.RETURNING,
              direction := n.2.2,
              velocity := { x := (n.1 : ℚ) * car.speed * 0.5, y := (n.2.1 : ℚ) * car.speed * 0.5 },
              pos := { x := targetCenterX - car.size.x / 2, y := targetCenterY - car.size.y / 2 } }
          | none => none
        else none
      match peeled with
      | some car' => { car := car', player := p, newPopups := [], halted := false }
      | none =>
        let validOptions := validDrivingOptions m vR hR tileX tileY car.direction
        if validOptions.length = 0 then
          { car := { car with state := CarState.PARKED, pos := car.homePos, velocity := { x := 0, y := 0 } },
            player := p, newPopups := [], halted := false }
        else
          let reverseDir := reverseOf car.direction
          let candidates0 := validOptions.filter fun fl => fl.d ≠ reverseDir
          let candidates := if candidates0.length = 0 then validOptions else candidates0
          let straight := candidates.find? fun fl => fl.d = car.direction
          let choice0 := listGetZ? candidates (jsRandIdx r.choiceIdx candidates.length)
          let choice :=
            match straight with
            | some st => if r.straight > 0.4 then some st else choice0
            | none => choice0
          let car :=
            match choice with
            | some ch =>
              if ch.d ≠ car.direction then
                { car with
                  pos := { x := targetCenterX - car.size.x / 2, y := targetCenterY - car.size.y / 2 },
                  velocity := { x := (ch.x : ℚ) * car.speed, y := (ch.y : ℚ) * car.speed },
                  direction := ch.d }
              else
                { car with velocity := { x := (ch.x : ℚ) * car.speed, y := (ch.y : ℚ) * car.speed } }
            | none => car
          carAdvance p car r.hitText
    else
      let car :=
        if car.direction = Dir.left ∨ car.direction = Dir.right then
          let diff := targetCenterY - (car.pos.y + car.size.y / 2)
          if |diff| > 1 then { car with pos := { x := car.pos.x, y := car.pos.y + diff * 0.1 } } else car
        else
          let diff := targetCenterX - (car.pos.x + car.size.x / 2)
          if |diff| > 1 then { car with pos := { x := car.pos.x + diff * 0.1, y := car.pos.y } } else car
      carAdvance p car r.hitText

/-- Result of the whole car loop. -/
structure CarsPhaseOut where
  cars : List Car
  player : Player
  newPopups : List TextPopup
  halted : Bool
deriving Repr

/-- The car loop: cars are processed in order; a fatal hit aborts the whole
tick, leaving the remaining cars untouched (the source's `return`). -/
def carsPhaseAux (m : GameMap) (vR hR : List ℤ) (dt : ℚ) (rolls : ℕ → CarRolls) :
    ℕ → Player → List Car → CarsPhaseOut
  | _, p, [] => { cars := [], player := p, newPopups := [], halted := false }
  | k, p, car :: rest =>
    let out := carStep m vR hR p car dt (rolls k)
    if out.halted then
      { cars := out.car :: rest, player := out.player, newPopups := out.newPopups, halted := true }
    else
      let tail := carsPhaseAux m vR hR dt rolls (k + 1) out.player rest
      { cars := out.car :: tail.cars, player := tail.player,
        newPopups := out.newPopups ++ tail.newPopups, halted := tail.halted }

def carsPhase (m : GameMap) (vR hR : List ℤ) (cars : List Car) (p : Player) (dt : ℚ)
    (rolls : ℕ → CarRolls) : CarsPhaseOut :=
  carsPhaseAux m vR hR dt rolls 0 p cars

/-- Accumulator of the power-up prune/pickup filter. -/
structure PupAcc where
  kept : List PowerUp
  player : Player
  timer : ℚ
  trafficPauseTimer : ℚ
  cars : List Car
  newPopups : List TextPopup
deriving Repr

/-- Effect application of a picked-up power-up (update lines 1089-1111). -/
def applyPowerUp (acc : PupAcc) (pup : PowerUp) : PupAcc :=
  let p := acc.player
  match pup.kind with
  | PowerUpType.COFFEE =>
    { acc with
      player := { p with
                  boostCharge := min (p.boostCharge + 1) MAX_BOOST_CHARGE,
                  boostUnlocked := true,
                  health := min (p.health + 1) p.maxHealth },
      newPopups := acc.newPopups ++ [mkTextPopup "RUN RECHARGE!" p.pos "#6f4e37"] }
  | PowerUpType.CLOCK =>
    { acc with
      timer := min (acc.timer + 10) INITIAL_TIME,
      newPopups := acc.newPopups ++ [mkTextPopup "+10 SEC" p.pos "#ffffff"] }
  | PowerUpType.TRAFFIC_LIGHT =>
    { acc with
      cars := acc.cars.map fun c => { c with frozenTimer := 10 },
      trafficPauseTimer := 10,
      newPopups := acc.newPopups ++ [mkTextPopup "TRAFFIC STOPPED!" p.pos "#ffcc00"] }
  | PowerUpType.RAINCOAT =>
    { acc with
      player := { p with buffs := { puddleImmunity := 10 } },
      newPopups := acc.newPopups ++ [mkTextPopup "RAINCOAT!" p.pos "#f4d03f"] }

/-- The power-up filter (update lines 1081-1115): decay lifetime, drop
expired ones, consume and apply those overlapping the player. -/
def powerupsPhaseAux (dt : ℚ) : List PowerUp → PupAcc → PupAcc
  | [], acc => acc
  | pup :: rest, acc =>
    let pup := { pup with life := pup.life - dt }
    if pup.life ≤ 0 then powerupsPhaseAux dt rest acc
    else if checkCollision { pos := acc.player.pos, size := acc.player.size }
        { pos := pup.pos, size := pup.size } then
      powerupsPhaseAux dt rest (applyPowerUp acc pup)
    else powerupsPhaseAux dt rest { acc with kept := acc.kept ++ [pup] }

/-- Particle decay-and-prune (update lines 1117-1122). -/
def particlesPhase (parts : List Particle) (dt : ℚ) : List Particle :=
  (parts.map fun part =>
    { part with
      life := part.life - dt,
      pos := { x := part.pos.x + part.velocity.x * dt, y := part.pos.y + part.velocity.y * dt } }
  ).filter fun part => decide (part.life > 0)

/-- Text-popup decay-and-prune (update lines 1124-1129). -/
def popupsPhase (pops : List TextPopup) (dt : ℚ) : List TextPopup :=
  (pops.map fun t =>
    { t with
      life := t.life - dt,
      pos := { x := t.pos.x + t.velocity.x * dt, y := t.pos.y + t.velocity.y * dt } }
  ).filter fun t => decide (t.life > 0)

/-- Camera follow, clamped to the map (update lines 1131-1134); `vw`/`vh`
are `window.innerWidth`/`window.innerHeight`. -/
def cameraPhase (playerPos : Vector2) (vw vh : ℚ) : Vector2 :=
  { x := max 0 (min (playerPos.x - vw / 2) (MAP_PIXEL_WIDTH - vw)),
    y := max 0 (min (playerPos.y - vh / 2) (MAP_PIXEL_HEIGHT - vh)) }

/-- The car-spawn probability of a tick (update lines 705-710). -/
def spawnChanceOf (timer : ℚ) : ℚ :=
  if timer ≤ 60 then 0.01 + (1 - max 0 timer / 60) * 0.04 else 0.01

/-- Traffic-pause decay, random car activation and power-up spawning: the
segment of `update` between the timeout check and the player phase (lines
701-731). -/
def spawnSegment (s : GameState) (dt : ℚ) (o : TickOracle) : GameState :=
  let s := if s.trafficPauseTimer > 0 then { s with trafficPauseTimer := s.trafficPauseTimer - dt } else s
  let s := if o.spawnRoll < spawnChanceOf s.timer then activateCar s o.carPick else s
  spawnPowerupPhase s o

/-- One tick of the Round Controller (`update`).  `dt` is the frame delta in
seconds (the driver clamps it to at most 0.1), `now` is `performance.now()`
in milliseconds, `vw`/`vh` the viewport size.  The result is `none` exactly
when the source tick does not complete (the retargeting `while` loop, see
`deliveryPhase`). -/
def update (s : GameState) (dt : ℚ) (input : Input) (o : TickOracle) (now vw vh : ℚ) :
    Option GameState :=
  if ¬ s.isPlaying ∨ s.isGameOver then some s
  else
  let s := { s with timer := s.timer - dt }
  if s.timer ≤ 0 then some { s with isGameOver := true, gameOverReason := "TIMEOUT" }
  else
  let s := spawnSegment s dt o
  let pOut := playerPhase s.map s.entities.staticObjects s.entities.puddles s.prevDash
    s.entities.player dt input o
  let s := { s with prevDash := pOut.prevDash,
                    entities.player := pOut.player,
                    entities.particles := s.entities.particles ++ pOut.newParticles,
                    entities.textPopups := s.entities.textPopups ++ pOut.newPopups }
  if pOut.died then some { s with isGameOver := true, gameOverReason := "HEALTH" }
  else
  let s := { s with entities.player := timersDecayPhase s.entities.player dt }
  match deliveryPhase s now o with
  | none => none
  | some s =>
    let projOut := projectilesPhase s.entities.projectiles dt o.confettiVel
    let s := { s with entities.projectiles := projOut.1,
                      entities.particles := s.entities.particles ++ projOut.2 }
    let cOut := carsPhase s.map s.vRoads s.hRoads s.entities.cars s.entities.player dt o.carRolls
    let s := { s with entities.cars := cOut.cars, entities.player := cOut.player,
                      entities.textPopups := s.entities.textPopups ++ cOut.newPopups }
    if cOut.halted then some { s with isGameOver := true, gameOverReason := "HEALTH" }
    else
    let acc := powerupsPhaseAux dt s.entities.powerups
      { kept := [], player := s.entities.player, timer := s.timer,
        trafficPauseTimer := s.trafficPauseTimer, cars := s.entities.cars, newPopups := [] }
    let s := { s with entities.powerups := acc.kept, entities.player := acc.player,
                      timer := acc.timer, trafficPauseTimer := acc.trafficPauseTimer,
                      entities.cars := acc.cars,
                      entities.textPopups := s.entities.textPopups ++ acc.newPopups }
    let s := { s with entities.particles := particlesPhase s.entities.particles dt }
    let s := { s with entities.textPopups := popupsPhase s.entities.textPopups dt }
    let s := { s with camera := cameraPhase s.entities.player.pos vw vh }
    some s

/-- The tail of a completing `update` tick after the delivery resolution:
projectile advance, the car loop (with its possible fatal abort), power-up
pickup, and the cosmetic decay/camera phases.  Mirrors the corresponding
segment of `update` verbatim, for use in its case analysis. -/
def PostDelivery (s7 : GameState) (dt : ℚ) (o : TickOracle) (vw vh : ℚ) (s' : GameState) : Prop :=
  let projOut := projectilesPhase s7.entities.projectiles dt o.confettiVel
  let s8 : GameState :=
    { s7 with
      entities.projectiles := projOut.1,
      entities.particles := s7.entities.particles ++ projOut.2 }
  let cOut := carsPhase s8.map s8.vRoads s8.hRoads s8.entities.cars s8.entities.player dt o.carRolls
  let s9 : GameState :=
    { s8 with
      entities.cars := cOut.cars,
      entities.player := cOut.player,
      entities.textPopups := s8.entities.textPopups ++ cOut.newPopups }
  (cOut.halted = true ∧ s' = { s9 with isGameOver := true, gameOverReason := "HEALTH" }) ∨
  (cOut.halted = false ∧
    (let acc := powerupsPhaseAux dt s9.entities.powerups
      { kept := [], player := s9.entities.player, timer := s9.timer,
        trafficPauseTimer := s9.trafficPauseTimer, cars := s9.entities.cars, newPopups := [] }
    let s10 : GameState :=
      { s9 with
        entities.powerups := acc.kept,
        entities.player := acc.player,
        timer := acc.timer,
        trafficPauseTimer := acc.trafficPauseTimer,
        entities.cars := acc.cars,
        entities.textPopups := s9.entities.textPopups ++ acc.newPopups }
    let s11 : GameState := { s10 with entities.particles := particlesPhase s10.entities.particles dt }
    let s12 : GameState := { s11 with entities.textPopups := popupsPhase s11.entities.textPopups dt }
    s' = { s12 with camera := cameraPhase s12.entities.player.pos vw vh }))

/-- The segment of a completing `update` tick from the player phase on (with
its possible fatal abort), then timer decay and the delivery resolution
followed by `PostDelivery`, starting from the post-spawn state `s4`.
Mirrors the corresponding segment of `update` verbatim. -/
def MainTail (s4 : GameState) (dt : ℚ) (input : Input) (o : TickOracle) (now vw vh : ℚ)
    (s' : GameState) : Prop :=
  let pOut := playerPhase s4.map s4.entities.staticObjects s4.entities.puddles s4.prevDash
    s4.entities.player dt input o
  let s5 : GameState :=
    { s4 with
      prevDash := pOut.prevDash,
      entities.player := pOut.player,
      entities.particles := s4.entities.particles ++ pOut.newParticles,
      entities.textPopups := s4.entities.textPopups ++ pOut.newPopups }
  (pOut.died = true ∧ s' = { s5 with isGameOver := true, gameOverReason := "HEALTH" }) ∨
  (pOut.died = false ∧
    (let s6 : GameState := { s5 with entities.player := timersDecayPhase s5.entities.player dt }
    ∃ s7, deliveryPhase s6 now o = some s7 ∧ PostDelivery s7 dt o vw vh s'))

/-- The main path of a completing `update` tick that passed the playing,
timeout and spawn segments. -/
def MainPath (s : GameState) (dt : ℚ) (input : Input) (o : TickOracle) (now vw vh : ℚ)
    (s' : GameState) : Prop :=
  MainTail (spawnSegment { s with timer := s.timer - dt } dt o) dt input o now vw vh s'

/-! ## Procedural city generation (`initGame`, GameLoop.tsx lines 154-651). -/

/-- The `Math.random()` draws of `initGame`.  Streams are indexed by loop
iteration or tile coordinate; since every source draw is an independent
uniform sample, per-site indexed streams are an equivalent presentation of
the single sequential `Math.random()` stream. -/
structure InitOracle where
  vGap : ℕ → ℚ
  hGap : ℕ → ℚ
  density : ℕ → ℕ → ℚ
  shape : ℕ → ℕ → ℚ
  roof : ℕ → ℕ → ℚ
  wall : ℕ → ℕ → ℚ
  styleRoll : ℕ → ℕ → ℚ
  pool : ℕ → ℕ → ℚ
  gardenTree : ℕ → ℕ → ℚ
  patio : ℕ → ℕ → ℚ
  streetTree : ℕ → ℕ → ℚ
  parkTree : ℕ → ℕ → ℚ
  targetPick : ℚ
  puddleDims : ℕ → ℚ × ℚ
  puddlePos : ℕ → ℕ → ℚ × ℚ
  carSpawn : ℕ → ℚ

/-- JavaScript `map[ty][tx] = t`; out-of-range assignments never occur in
the generator (all writes are within the `MAP_WIDTH`×`MAP_HEIGHT` grid), and
are a no-op here. -/
def setTile (m : GameMap) (tx ty : ℤ) (t : TileType) : GameMap :=
  if 0 ≤ tx ∧ 0 ≤ ty then
    match m.get? ty.toNat with
    | some row => m.set ty.toNat (row.set tx.toNat t)
    | none => m
  else m

/-- The all-grass starting grid. -/
def blankMap : GameMap :=
  List.replicate MAP_HEIGHT.toNat (List.replicate MAP_WIDTH.toNat TileType.GRASS)

/-- The generation loop of `addLines`: from `last`, repeatedly add a random
gap in `[minGap, minGap+4]` and stop once the next line would come within
`minGap` of `maxv`.  For genuine `Math.random()` rolls every gap is at least
`minGap > 0`, so the source's `while(true)` performs at most `fuel` many
iterations when `fuel ≥ maxv`; fuel exhaustion truncates the (divergent)
behaviour the source would exhibit on adversarial rolls. -/
def addLinesAux (gapRolls : ℕ → ℚ) (maxv minGap : ℤ) :
    ℕ → ℤ → ℕ → List ℤ
  | 0, _, _ => []
  | fuel + 1, last, k =>
    let gap := minGap + Int.floor (gapRolls k * 5)
    let next := last + gap
    if maxv - minGap ≤ next then []
    else next :: addLinesAux gapRolls maxv minGap fuel next (k + 1)

/-- `addLines`: extend a perimeter line list with random internal lines and
sort ascending. -/
def addLines (arr : List ℤ) (maxv minGap : ℤ) (gapRolls : ℕ → ℚ) : List ℤ :=
  let gen := addLinesAux gapRolls maxv minGap maxv.toNat (arr.headD 0) 0
  (arr ++ gen).insertionSort (fun a b => a ≤ b)

/-- The vertical road-band start columns of a round. -/
def mkVRoads (o : InitOracle) : List ℤ :=
  addLines [2, MAP_WIDTH - 4] (MAP_WIDTH - 4) 10 o.vGap

/-- The horizontal road-band start rows of a round. -/
def mkHRoads (o : InitOracle) : List ℤ :=
  addLines [2, MAP_HEIGHT - 4] (MAP_HEIGHT - 4) 10 o.hGap

/-- Rasterize the 2-tile-wide road bands onto the grid. -/
def rasterizeRoads (m : GameMap) (vR hR : List ℤ) : GameMap :=
  let m := vR.foldl (fun m x =>
    (List.range MAP_HEIGHT.toNat).foldl (fun m y =>
      setTile (setTile m x (y : ℤ) TileType.ROAD) (x + 1) (y : ℤ) TileType.ROAD) m) m
  hR.foldl (fun m y =>
    (List.range MAP_WIDTH.toNat).foldl (fun m x =>
      setTile (setTile m (x : ℤ) y TileType.ROAD) (x : ℤ) (y + 1) TileType.ROAD) m) m

/-- `hasAdjacentRoad`: some 4-neighbour of the tile is in-bounds road. -/
def hasAdjacentRoad (m : GameMap) (tx ty : ℤ) : Bool :=
  [((0 : ℤ), (1 : ℤ)), (0, -1), (1, 0), (-1, 0)].any fun d =>
    let nx := tx + d.1
    let ny := ty + d.2
    decide (0 ≤ nx ∧ nx < MAP_WIDTH ∧ 0 ≤ ny ∧ ny < MAP_HEIGHT) &&
      decide (tileAt? m nx ny = some TileType.ROAD)

/-- An inter-road block considered for the park. -/
structure Block where
  x : ℤ
  y : ℤ
  w : ℤ
  h : ℤ
deriving DecidableEq, Repr

/-- The blocks between consecutive road bands with interior at least 4×4. -/
def candidateBlocks (vR hR : List ℤ) : List Block :=
  ((List.range (vR.length - 1)).map fun i =>
    (List.range (hR.length - 1)).filterMap fun j =>
      let vi := vR.getD i 0
      let vi1 := vR.getD (i + 1) 0
      let hj := hR.getD j 0
      let hj1 := hR.getD (j + 1) 0
      let b : Block := { x := vi + 2, y := hj + 2, w := vi1 - vi - 2, h := hj1 - hj - 2 }
      if 4 ≤ b.w ∧ 4 ≤ b.h then some b else none).flatten

/-- The sort key of the park-block comparator: block area minus twice its
Manhattan distance from the map centre (the comparator sorts descending by
this key). -/
def blockKey (b : Block) : ℚ :=
  ((b.w * b.h : ℤ) : ℚ) -
    (|((b.x : ℚ) + (b.w : ℚ) / 2) - (MAP_WIDTH : ℚ) / 2| +
     |((b.y : ℚ) + (b.h : ℚ) / 2) - (MAP_HEIGHT : ℚ) / 2|) * 2

/-- `blocks.sort(cmp)[0]`: the earliest block of maximal key (the ES2019
stable descending sort puts it first); `{0,0,0,0}` when no block exists. -/
def parkBlockOf (blocks : List Block) : Block :=
  blocks.foldl (fun best b => if blockKey best < blockKey b then b else best)
    (blocks.headD { x := 0, y := 0, w := 0, h := 0 })

def roofColors : List String :=
  ["#b86f50", "#8f563b", "#d68e6e", "#8a6f50", "#a35a40", "#50668a"]

def wallColorList : List String :=
  ["#e8dcb5", "#d6e8b5", "#b5d6e8", "#e8b5c2", "#dddddd", "#e8ceb5"]

/-- The body of one accepted house placement (the branch of the placement
scan guarded by the grass test, a road-facing side and the density roll),
GameLoop.tsx lines 266-391. -/
def buildHouse (o : InitOracle) (st : GameMap × List House) (yx : ℕ × ℕ)
    (facing : Dir) : GameMap × List House :=
  let y : ℤ := (yx.1 : ℤ)
  let x : ℤ := (yx.2 : ℤ)
  let m := st.1
  let houses := st.2
  let wTiles : ℤ := 4
  let hTiles : ℤ := 3
  (let clear :=
          if MAP_HEIGHT ≤ y + hTiles ∨ MAP_WIDTH ≤ x + wTiles then false
          else (List.range hTiles.toNat).all fun dy =>
            (List.range wTiles.toNat).all fun dx =>
              decide (tileAt? m (x + (dx : ℤ)) (y + (dy : ℤ)) = some TileType.GRASS)
        if clear then
          let houseY : ℤ := if facing = Dir.up then 1 else 0
          let houseH : ℤ := hTiles - 1
          let houseX : ℤ := if hasAdjacentRoad m x (y + 1) then 1 else 0
          let houseW : ℤ := wTiles - houseX - (if hasAdjacentRoad m (x + wTiles - 1) (y + 1) then 1 else 0)
          let yh : ℤ × ℤ :=
            if facing ≠ Dir.up ∧ hasAdjacentRoad m (x + 1) y then (houseY + 1, houseH - 1)
            else (houseY, houseH)
          let houseY := yh.1
          let houseH := yh.2
          let houseH := if facing ≠ Dir.down ∧ hasAdjacentRoad m (x + 1) (y + hTiles - 1) then houseH - 1 else houseH
          let houseW := if houseW < 2 ∨ houseH < 1 then 0 else houseW
          let m := (List.range hTiles.toNat).foldl (fun m dy =>
            (List.range wTiles.toNat).foldl (fun m dx =>
              setTile m (x + (dx : ℤ)) (y + (dy : ℤ)) TileType.GARDEN) m) m
          if 0 < houseW then
            let shapeType := if o.shape yx.2 yx.1 > 0.3 then HouseShape.L else HouseShape.rect
            let realW : ℚ := (houseW : ℚ) * TILE_SIZE
            let realH : ℚ := (houseH : ℚ) * TILE_SIZE
            let pos : Vector2 := { x := ((x + houseX : ℤ) : ℚ) * TILE_SIZE, y := ((y + houseY : ℤ) : ℚ) * TILE_SIZE }
            let drivewayCol : ℤ := x + houseX + houseW - 1
            let drivewayPos : Vector2 :=
              if facing = Dir.down then { x := (drivewayCol : ℚ) * TILE_SIZE, y := pos.y + realH - TILE_SIZE }
              else { x := (drivewayCol : ℚ) * TILE_SIZE, y := pos.y }
            let doorPos : Vector2 :=
              if facing = Dir.down then { x := pos.x + TILE_SIZE * 1.5, y := pos.y + realH - 8 }
              else { x := pos.x + TILE_SIZE * 1.5, y := pos.y + 8 }
            let cutoutCorner : Option Corner :=
              if shapeType = HouseShape.L then
                (if facing = Dir.down then some Corner.bl else some Corner.tl)
              else none
            let m := (List.range houseH.toNat).foldl (fun m dy =>
              (List.range houseW.toNat).foldl (fun m dx =>
                let dxz : ℤ := (dx : ℤ)
                let dyz : ℤ := (dy : ℤ)
                let isHousePart :=
                  if shapeType = HouseShape.L then
                    ¬ ((cutoutCorner = some Corner.tl ∧ dxz < 2 ∧ dyz < 1) ∨
                       (cutoutCorner = some Corner.tr ∧ houseW - 2 ≤ dxz ∧ dyz < 1) ∨
                       (cutoutCorner = some Corner.bl ∧ dxz < 2 ∧ houseH - 1 ≤ dyz) ∨
                       (cutoutCorner = some Corner.br ∧ houseW - 2 ≤ dxz ∧ houseH - 1 ≤ dyz))
                  else True
                if isHousePart then setTile m (x + houseX + dxz) (y + houseY + dyz) TileType.HOUSE else m) m) m
            let m := (List.range hTiles.toNat).foldl (fun m dy =>
              if drivewayCol < MAP_WIDTH then setTile m drivewayCol (y + (dy : ℤ)) TileType.DRIVEWAY else m) m
            let house : House :=
              { id := "h_" ++ toString x ++ "_" ++ toString y,
                pos := pos,
                size := { x := realW, y := realH },
                facing := facing,
                isTarget := false,
                doorPos := doorPos,
                gardenPos := { x := (x : ℚ) * TILE_SIZE, y := (y : ℚ) * TILE_SIZE },
                gardenSize := { x := (wTiles : ℚ) * TILE_SIZE, y := (hTiles : ℚ) * TILE_SIZE },
                drivewayPos := drivewayPos,
                drivewaySize := { x := TILE_SIZE, y := TILE_SIZE },
                roofColor := (listGetZ? roofColors (jsRandIdx (o.roof yx.2 yx.1) roofColors.length)).getD "undefined",
                wallColor := (listGetZ? wallColorList (jsRandIdx (o.wall yx.2 yx.1) wallColorList.length)).getD "undefined",
                style := (jsRandIdx (o.styleRoll yx.2 yx.1) 4).toNat,
                shape := shapeType,
                cutoutCorner := cutoutCorner }
            (m, houses ++ [house])
          else (m, houses)
        else st)

/-- One iteration of the house-placement scan at tile `(x, y) = (yx.2, yx.1)`
(GameLoop.tsx lines 246-400), transforming the `(map, houses)` pair. -/
def housePlacementStep (park : Block) (o : InitOracle)
    (st : GameMap × List House) (yx : ℕ × ℕ) : GameMap × List House :=
  let y : ℤ := (yx.1 : ℤ)
  let x : ℤ := (yx.2 : ℤ)
  let m := st.1
  if park.x - 1 ≤ x ∧ x < park.x + park.w + 1 ∧ park.y - 1 ≤ y ∧ y < park.y + park.h + 1 then st
  else if tileAt? m x y = some TileType.GRASS then
    let hTiles : ℤ := 3
    let facing : Option Dir :=
      if 0 < y ∧ tileAt? m x (y - 1) = some TileType.ROAD then some Dir.up
      else if y + hTiles < MAP_HEIGHT ∧ tileAt? m x (y + hTiles) = some TileType.ROAD then some Dir.down
      else none
    match facing with
    | none => st
    | some facing =>
      if o.density yx.2 yx.1 > 0.1 then buildHouse o st yx facing else st
  else st

/-- The house-placement scan over the whole grid, row-major. -/
def placeHouses (park : Block) (o : InitOracle) (m0 : GameMap) : GameMap × List House :=
  (((List.range (MAP_HEIGHT.toNat - 3)).map fun y =>
      (List.range (MAP_WIDTH.toNat - 4)).map fun x => (y, x)).flatten).foldl
    (housePlacementStep park o) (m0, [])

/-- The closed integer interval `[lo, hi]` as a list (empty when `hi < lo`). -/
def coordRange (lo hi : ℤ) : List ℤ :=
  (List.range (hi + 1 - lo).toNat).map fun k => lo + (k : ℤ)

/-- Fill pass (lines 402-424): inside the urban area, all remaining grass
outside the park becomes garden. -/
def fillGardens (m : GameMap) (park : Block) (cityMinX cityMaxX cityMinY cityMaxY : ℤ) : GameMap :=
  (coordRange cityMinY cityMaxY).foldl (fun m y =>
    (coordRange cityMinX cityMaxX).foldl (fun m x =>
      if park.x ≤ x ∧ x < park.x + park.w ∧ park.y ≤ y ∧ y < park.y + park.h then m
      else if tileAt? m x y = some TileType.GRASS then setTile m x y TileType.GARDEN
      else m) m) m

/-- Garden decoration pass (lines 427-470): pools, backyard trees, patios. -/
def decorateGardens (o : InitOracle) (cityMinX cityMaxX cityMinY cityMaxY : ℤ)
    (m : GameMap) : GameMap × List StaticObject :=
  (coordRange cityMinY cityMaxY).foldl (fun st y =>
    (coordRange cityMinX cityMaxX).foldl (fun st x =>
      let m := st.1
      let objs := st.2
      if tileAt? m x y = some TileType.GARDEN then
        if o.pool x.toNat y.toNat < 0.05 then
          let pw : ℤ := 3
          let ph : ℤ := 2
          let canPool :=
            if cityMaxX < x + pw ∨ cityMaxY < y + ph then false
            else (List.range ph.toNat).all fun dy =>
              (List.range pw.toNat).all fun dx =>
                decide (tileAt? m (x + (dx : ℤ)) (y + (dy : ℤ)) = some TileType.GARDEN) &&
                  !(hasAdjacentRoad m (x + (dx : ℤ)) (y + (dy : ℤ)))
          if canPool then
            ((List.range ph.toNat).foldl (fun m dy =>
              (List.range pw.toNat).foldl (fun m dx =>
                setTile m (x + (dx : ℤ)) (y + (dy : ℤ)) TileType.WATER) m) m, objs)
          else (m, objs)
        else if o.gardenTree x.toNat y.toNat < 0.15 then
          (m, objs ++ [{ id := "tree_backyard_" ++ toString x ++ "_" ++ toString y,
                         pos := { x := (x : ℚ) * TILE_SIZE + TILE_SIZE / 2 - 10,
                                  y := (y : ℚ) * TILE_SIZE + TILE_SIZE / 2 - 10 },
                         size := { x := 20, y := 20 } }])
        else if o.patio x.toNat y.toNat < 0.05 then
          (setTile m x y TileType.FOOTPATH, objs)
        else (m, objs)
      else st) st) (m, [])

/-- Roadside footpath-and-tree pass (lines 473-505) over the whole grid. -/
def footpathPass (o : InitOracle) (st : GameMap × List StaticObject) :
    GameMap × List StaticObject :=
  (List.range MAP_HEIGHT.toNat).foldl (fun st y =>
    (List.range MAP_WIDTH.toNat).foldl (fun st x =>
      let m := st.1
      let xz : ℤ := Int.ofNat x
      let yz : ℤ := Int.ofNat y
      if tileAt? m xz yz = some TileType.GARDEN ∨ tileAt? m xz yz = some TileType.GRASS then
        -- the source destructures this neighbour list as `[dy, dx]`
        let hasRoad := [((0 : ℤ), (1 : ℤ)), (0, -1), (1, 0), (-1, 0)].any fun d =>
          let ny := yz + d.1
          let nx := xz + d.2
          decide (0 ≤ ny ∧ ny < MAP_HEIGHT ∧ 0 ≤ nx ∧ nx < MAP_WIDTH) &&
            decide (tileAt? m nx ny = some TileType.ROAD)
        if hasRoad then
          let m := setTile m xz yz TileType.FOOTPATH
          if o.streetTree x y > 0.8 then
            (m, st.2 ++ [{ id := "tree_" ++ toString xz ++ "_" ++ toString yz,
                           pos := { x := (xz : ℚ) * TILE_SIZE + TILE_SIZE / 2 - 10,
                                    y := (yz : ℚ) * TILE_SIZE + TILE_SIZE / 2 - 10 },
                           size := { x := 20, y := 20 } }])
          else (m, st.2)
        else st
      else st) st) st

/-- Park decoration (lines 507-552): pond puddle, garden conversion and park
trees.  Integer `/ 2` here is on non-negative values, where JS
`Math.floor(a/2)` and Lean integer division agree. -/
def decoratePark (o : InitOracle) (park : Block) (m : GameMap)
    (objs : List StaticObject) : GameMap × List StaticObject × List Puddle :=
  if 0 < park.w then
    let pondW := min (park.w - 2) 4
    let pondH := min (park.h - 2) 3
    let pondX := park.x + (park.w - pondW) / 2
    let pondY := park.y + (park.h - pondH) / 2
    let pond : Puddle :=
      { id := "park_pond",
        pos := { x := (pondX : ℚ) * TILE_SIZE, y := (pondY : ℚ) * TILE_SIZE },
        size := { x := (pondW : ℚ) * TILE_SIZE, y := (pondH : ℚ) * TILE_SIZE } }
    let st := (coordRange park.y (park.y + park.h - 1)).foldl (fun st y =>
      (coordRange park.x (park.x + park.w - 1)).foldl (fun st x =>
        let m := st.1
        let m := if ¬ (tileAt? m x y = some TileType.FOOTPATH) then setTile m x y TileType.GARDEN else m
        if pondX ≤ x ∧ x < pondX + pondW ∧ pondY ≤ y ∧ y < pondY + pondH then (m, st.2)
        else if o.parkTree x.toNat y.toNat > 0.6 then
          (m, st.2 ++ [{ id := "tree_park_" ++ toString x ++ "_" ++ toString y,
                         pos := { x := (x : ℚ) * TILE_SIZE + 6, y := (y : ℚ) * TILE_SIZE + 6 },
                         size := { x := 20, y := 20 } }])
        else (m, st.2)) st) (m, objs)
    (st.1, st.2, [pond])
  else (m, objs, [])

/-- Target selection (lines 554-556): one uniformly random house becomes the
initial delivery target.  (An out-of-range roll would crash JS dereferencing
`undefined`; unreachable for genuine `Math.random()` draws.) -/
def pickTarget (houses : List House) (roll : ℚ) : List House :=
  if 0 < houses.length then
    let j := jsRandIdx roll houses.length
    match listGetZ? houses j with
    | some h => houses.set j.toNat { h with isTarget := true }
    | none => houses
  else houses

/-- Start-position scan (lines 558-567).  The source `break` leaves only the
inner column loop, so every row holding a road overwrites `startPos` with its
first road tile; the result is the first road tile of the last road-bearing
row (falling back to `(64, 64)` on an all-roadless grid). -/
def startPosOf (m : GameMap) : Vector2 :=
  (List.range MAP_HEIGHT.toNat).foldl (fun sp y =>
    match (List.range MAP_WIDTH.toNat).find? (fun x =>
        decide (tileAt? m (x : ℤ) (y : ℤ) = some TileType.ROAD)) with
    | some x => { x := (x : ℚ) * TILE_SIZE + 10, y := (y : ℚ) * TILE_SIZE + 10 }
    | none => sp) { x := 64, y := 64 }

/-- The ten random road puddles (lines 570-588), each avoiding the puddles
(including the park pond) placed before it. -/
def mkPuddles (m : GameMap) (o : InitOracle) (initial : List Puddle) : List Puddle :=
  (List.range 10).foldl (fun puddles i =>
    let q := o.puddleDims i
    let w : ℚ := 15 + q.1 * 13
    let h : ℚ := 12 + q.2 * 10
    let pos := getRandomRoadPosition m { x := w, y := h }
      (puddles.map fun pud => { pos := pud.pos, size := pud.size }) (o.puddlePos i)
    puddles ++ [{ id := "pud_" ++ toString i, pos := pos, size := { x := w, y := h } }]) initial

/-- Car seeding (lines 590-610): one parked car per house with probability
one half, sitting on the driveway and facing away from the house front. -/
def mkCars (houses : List House) (o : InitOracle) : List Car :=
  houses.enum.filterMap fun ih =>
    if o.carSpawn ih.1 > 0.5 then
      let h := ih.2
      let carX := h.drivewayPos.x + 6
      let carY := h.drivewayPos.y + 6
      some { id := "car_" ++ toString ih.1,
             pos := { x := carX, y := carY },
             size := { x := 22, y := 12 },
             velocity := { x := 0, y := 0 },
             speed := CAR_SPEED,
             frozenTimer := 0,
             direction := if h.facing = Dir.up then Dir.down else Dir.up,
             state := CarState.PARKED,
             homePos := { x := carX, y := carY } }
    else none

/-- The mount-time player record of the `state` ref (lines 46-53), whose
fields not overwritten by `initGame` are inherited by the round's player. -/
def initialPlayer : Player :=
  { id := "p1",
    pos := { x := 0, y := 0 },
    size := { x := 14, y := 14 },
    velocity := { x := 0, y := 0 },
    speed := PLAYER_SPEED,
    isBoosting := false,
    boostTimer := 0,
    boostCharge := 0,
    boostUnlocked := false,
    frame := 0,
    direction := Dir.right,
    stunned := 0,
    buffs := { puddleImmunity := 0 },
    health := 3,
    maxHealth := 3,
    invulnerabilityTimer := 0 }

/-- `initGame`: build the round's map, entities and fresh round state.
`now` is the mount-time `performance.now()` in milliseconds (the source
stores it unscaled into `lastDeliveryTime`, which `update` later compares
against seconds). -/
def initGame (o : InitOracle) (now : ℚ) : GameState :=
  let vRoads := mkVRoads o
  let hRoads := mkHRoads o
  let m := rasterizeRoads blankMap vRoads hRoads
  let park := parkBlockOf (candidateBlocks vRoads hRoads)
  let mh := placeHouses park o m
  let m := mh.1
  let cityMinX := vRoads.headD 0
  let cityMaxX := vRoads.getLastD 0 + 1
  let cityMinY := hRoads.headD 0
  let cityMaxY := hRoads.getLastD 0 + 1
  let m := fillGardens m park cityMinX cityMaxX cityMinY cityMaxY
  let ds := decorateGardens o cityMinX cityMaxX cityMinY cityMaxY m
  let fp := footpathPass o ds
  let pk := decoratePark o park fp.1 fp.2
  let m := pk.1
  let houses := pickTarget mh.2 o.targetPick
  let startPos := startPosOf m
  let puddles := mkPuddles m o pk.2.2
  let cars := mkCars houses o
  { isPlaying := true,
    isGameOver := false,
    score := 0,
    timer := INITIAL_TIME,
    deliveries := 0,
    lastDeliveryTime := now,
    trafficPauseTimer := 0,
    map := m,
    vRoads := vRoads,
    hRoads := hRoads,
    entities :=
      { player := { initialPlayer with
          pos := startPos,
          size := { x := 14, y := 14 },
          health := 3,
          maxHealth := 3,
          invulnerabilityTimer := 0,
          buffs := { puddleImmunity := 0 },
          boostCharge := 0,
          boostUnlocked := false,
          boostTimer := 0,
          isBoosting := false },
        houses := houses,
        cars := cars,
        puddles := puddles,
        powerups := [],
        particles := [],
        staticObjects := pk.2.1,
        textPopups := [],
        projectiles := [] },
    camera := { x := 0, y := 0 },
    gameOverReason := "",
    prevDash := false }

/-! ## The round as a transition system. -/

/-- One externally driven frame: the driver clamps the wall-clock delta to
at most 0.1 s before calling `update`, and a paused frame skips `update`
entirely (leaving the state untouched), so the reachable states are closed
under exactly these steps. -/
def Step (s s' : GameState) : Prop :=
  ∃ (dt : ℚ) (input : Input) (o : TickOracle) (now vw vh : ℚ),
    0 ≤ dt ∧ dt ≤ 0.1 ∧ update s dt input o now vw vh = some s'

/-- The states a round can be in: some `initGame` output, or the result of a
tick from a reachable state. -/
inductive Reachable : GameState → Prop
  | init (o : InitOracle) (now : ℚ) : Reachable (initGame o now)
  | step {s s' : GameState} : Reachable s → Step s s' → Reachable s'

/-! ## General lemmas -/

/-- Number of houses flagged as the delivery target. -/
def countTargets (houses : List House) : ℕ := houses.countP (·.isTarget)

lemma findIdx?_of_pairwise_band {l : List ℤ}
    (hl : l.Pairwise (fun a b => a + 2 ≤ b)) :
    ∀ {i : ℕ} {v : ℤ}, l.get? i = some v → ∀ {tx : ℤ}, (tx = v ∨ tx = v + 1) →
      l.findIdx? (fun w => tx == w || tx == w + 1) = some i := by
  induction l with
  | nil => intro i v hv; simp at hv
  | cons a l ih =>
    intro i v hv tx htx
    cases i with
    | zero =>
      simp only [List.get?_cons_zero, Option.some.injEq] at hv
      subst hv
      have hpred : (tx == a || tx == a + 1) = true := by
        rcases htx with h | h <;> simp [h]
      simp [List.findIdx?_cons, hpred]
    | succ i =>
      simp only [List.get?_cons_succ] at hv
      have hmem : v ∈ l := List.get?_mem hv
      have hav : a + 2 ≤ v := (List.pairwise_cons.mp hl).1 v hmem
      have hpred : (tx == a || tx == a + 1) = false := by
        have h1 : tx ≠ a := by rcases htx with h | h <;> omega
        have h2 : tx ≠ a + 1 := by rcases htx with h | h <;> omega
        simp [h1, h2]
      have := ih (List.pairwise_cons.mp hl).2 hv htx
      simp [List.findIdx?_cons, hpred, this]

/-! ## C10 -/

/-- C10: for every map, entity size, avoid list and random tape,
`getRandomRoadPosition` (a bounded search of 1000 attempts) returns a
position that is either the hard-coded fallback `(64, 64)` or lies on a ROAD
tile, is walkable, and collides with nothing in the avoid list; there is no
error path. -/
theorem getRandomRoadPosition_road_or_fallback (m : GameMap) (entitySize : Vector2)
    (avoid : List Rect) (tape : ℕ → ℚ × ℚ) :
    getRandomRoadPosition m entitySize avoid tape = fallbackRoadPos ∨
    (∃ tx ty : ℤ, tileAt? m tx ty = some TileType.ROAD ∧
      getRandomRoadPosition m entitySize avoid tape =
        { x := (tx : ℚ) * TILE_SIZE + 4, y := (ty : ℚ) * TILE_SIZE + 4 } ∧
      isWalkable { x := (tx : ℚ) * TILE_SIZE + 4, y := (ty : ℚ) * TILE_SIZE + 4 } entitySize m = true ∧
      avoid.all (fun ent => !(checkCollision
        { pos := { x := (tx : ℚ) * TILE_SIZE + 4, y := (ty : ℚ) * TILE_SIZE + 4 },
          size := entitySize } ent)) = true) := by
  have key : ∀ (fuel attempt : ℕ),
      getRandomRoadPositionAux m entitySize avoid tape attempt fuel = fallbackRoadPos ∨
      (∃ tx ty : ℤ, tileAt? m tx ty = some TileType.ROAD ∧
        getRandomRoadPositionAux m entitySize avoid tape attempt fuel =
          { x := (tx : ℚ) * TILE_SIZE + 4, y := (ty : ℚ) * TILE_SIZE + 4 } ∧
        isWalkable { x := (tx : ℚ) * TILE_SIZE + 4, y := (ty : ℚ) * TILE_SIZE + 4 } entitySize m = true ∧
        avoid.all (fun ent => !(checkCollision
          { pos := { x := (tx : ℚ) * TILE_SIZE + 4, y := (ty : ℚ) * TILE_SIZE + 4 },
            size := entitySize } ent)) = true) := by
    intro fuel
    induction fuel with
    | zero => intro attempt; left; rfl
    | succ n ih =>
      intro attempt
      rw [getRandomRoadPositionAux]
      by_cases hroad : tileAt? m (jsRandIdx (tape attempt).1 MAP_WIDTH.toNat)
          (jsRandIdx (tape attempt).2 MAP_HEIGHT.toNat) = some TileType.ROAD
      · rw [if_pos hroad]
        by_cases hwalk : isWalkable
            { x := ((jsRandIdx (tape attempt).1 MAP_WIDTH.toNat : ℤ) : ℚ) * TILE_SIZE + 4,
              y := ((jsRandIdx (tape attempt).2 MAP_HEIGHT.toNat : ℤ) : ℚ) * TILE_SIZE + 4 }
            entitySize m = true
        · rw [if_pos hwalk]
          by_cases hcol : avoid.any (fun ent => checkCollision
              { pos := { x := ((jsRandIdx (tape attempt).1 MAP_WIDTH.toNat : ℤ) : ℚ) * TILE_SIZE + 4,
                         y := ((jsRandIdx (tape attempt).2 MAP_HEIGHT.toNat : ℤ) : ℚ) * TILE_SIZE + 4 },
                size := entitySize } ent) = true
          · rw [if_pos hcol]; exact ih (attempt + 1)
          · rw [if_neg hcol]
            right
            refine ⟨_, _, hroad, rfl, hwalk, ?_⟩
            simp only [List.all_eq_true]
            intro ent hent
            simp only [Bool.not_eq_true']
            exact Bool.eq_false_iff.mpr fun hc => hcol (List.any_eq_true.mpr ⟨ent, hent, hc⟩)
        · rw [if_neg hwalk]; exact ih (attempt + 1)
      · rw [if_neg hroad]; exact ih (attempt + 1)
  exact key 1000 0

/-! ## C9 -/

/-- C9: a car whose `frozenTimer` is positive at the start of its turn of
the car loop, whatever its state, keeps its position, velocity, direction
and state; its turn only decrements `frozenTimer` (by the frame delta), and
it neither touches the player nor spawns popups nor ends the tick. -/
theorem carStep_frozen (m : GameMap) (vR hR : List ℤ) (p : Player) (car : Car)
    (dt : ℚ) (r : CarRolls) (hf : 0 < car.frozenTimer) :
    (carStep m vR hR p car dt r).car.pos = car.pos ∧
    (carStep m vR hR p car dt r).car.velocity = car.velocity ∧
    (carStep m vR hR p car dt r).car.direction = car.direction ∧
    (carStep m vR hR p car dt r).car.state = car.state ∧
    (carStep m vR hR p car dt r).car.frozenTimer = car.frozenTimer - dt ∧
    (carStep m vR hR p car dt r).player = p ∧
    (carStep m vR hR p car dt r).newPopups = [] ∧
    (carStep m vR hR p car dt r).halted = false := by
  rw [carStep, if_pos hf]
  exact ⟨rfl, rfl, rfl, rfl, rfl, rfl, rfl, rfl⟩

/-- A frozen car for the C9 witness. -/
def wCar9 : Car :=
  { id := "c9", pos := { x := 100, y := 100 }, size := { x := 22, y := 12 },
    velocity := { x := 3.5, y := 0 }, speed := CAR_SPEED, frozenTimer := 1,
    direction := Dir.right, state := CarState.DRIVING, homePos := { x := 10, y := 10 } }

/-- Witness for C9 at a concrete frozen car. -/
theorem carStep_frozen_witness :
    0 < wCar9.frozenTimer ∧
    ((carStep [] [] [] initialPlayer wCar9 (1/60) ⟨0, 0, 0, 0⟩).car.state = wCar9.state ∧
     (carStep [] [] [] initialPlayer wCar9 (1/60) ⟨0, 0, 0, 0⟩).car.pos = wCar9.pos) := by
  have hf : 0 < wCar9.frozenTimer := by norm_num [wCar9]
  have h := carStep_frozen [] [] [] initialPlayer wCar9 (1/60) ⟨0, 0, 0, 0⟩ hf
  exact ⟨hf, h.2.2.2.1, h.1⟩

/-! ## C7 -/

/-- C7-amended: a DRIVING, unfrozen car that has reached its tile centre
and for which *no* flow option at all is valid (not even the reverse of its
heading) is reset to `PARKED` at `homePos` with zero velocity, leaving the
player untouched.  (When only the reverse is valid the source instead turns
the car around; see the counterexample.) -/
theorem carStep_deadEnd (m : GameMap) (vR hR : List ℤ) (p : Player) (car : Car)
    (dt : ℚ) (r : CarRolls)
    (hfr : car.frozenTimer ≤ 0)
    (hst : car.state = CarState.DRIVING)
    (hdist : carDistToCenter car < car.speed)
    (hpeel : ¬ (r.peel < 0.1))
    (hopts : validDrivingOptions m vR hR (carTileX car) (carTileY car) car.direction = []) :
    carStep m vR hR p car dt r =
      { car := { car with
                 state := CarState.PARKED,
                 pos := car.homePos,
                 velocity := { x := 0, y := 0 } },
        player := p, newPopups := [], halted := false } := by
  have h1 : ¬ (0 < car.frozenTimer) := not_lt.mpr hfr
  have hpeel' : ¬ (r.peel < 1 / 10) := by
    have h01 : (0.1 : ℚ) = 1 / 10 := by norm_num
    rwa [h01] at hpeel
  rw [carStep, if_neg h1]
  simp only [hst]
  norm_num +decide [hdist, hopts, hpeel']

/-- The map of the C7 counterexample: a single vertical road band at
columns 2-3 (vRoads = [2]), five rows tall. -/
def cexMap7 : GameMap :=
  [[TileType.GRASS, TileType.GRASS, TileType.ROAD, TileType.ROAD],
   [TileType.GRASS, TileType.GRASS, TileType.ROAD, TileType.ROAD],
   [TileType.GRASS, TileType.GRASS, TileType.ROAD, TileType.ROAD],
   [TileType.GRASS, TileType.GRASS, TileType.ROAD, TileType.ROAD],
   [TileType.GRASS, TileType.GRASS, TileType.ROAD, TileType.ROAD]]

/-- A car driving up at the centre of tile (2, 1), whose only valid flow
option is `down` — the direct reverse of its heading. -/
def cexCar7 : Car :=
  { id := "c7", pos := { x := 69, y := 42 }, size := { x := 22, y := 12 },
    velocity := { x := 0, y := -3.5 }, speed := CAR_SPEED, frozenTimer := 0,
    direction := Dir.up, state := CarState.DRIVING, homePos := { x := 200, y := 200 } }

/-- A player far from the counterexample car. -/
def cexPlayer7 : Player := { initialPlayer with pos := { x := 500, y := 500 } }

def cexRolls7 : CarRolls := { peel := 0.5, choiceIdx := 0, straight := 0.5, hitText := 0 }

/-- C7-counterexample: `cexCar7` is DRIVING at its tile centre and every
flow option other than the direct reverse of its heading is invalid (the
filtered option list is empty), yet after its turn the car is still DRIVING
(it has turned around) rather than PARKED at `homePos` as the claim states. -/
theorem carStep_deadEnd_cex :
    cexCar7.state = CarState.DRIVING ∧
    carDistToCenter cexCar7 < cexCar7.speed ∧
    (validDrivingOptions cexMap7 [2] [] (carTileX cexCar7) (carTileY cexCar7)
      cexCar7.direction).filter (fun fl => fl.d ≠ reverseOf cexCar7.direction) = [] ∧
    (carStep cexMap7 [2] [] cexPlayer7 cexCar7 (1/60) cexRolls7).car.state ≠ CarState.PARKED := by
  refine ⟨rfl, ?_, ?_, ?_⟩
  · norm_num [carDistToCenter, carCenter, carTileX, carTileY, cexCar7, TILE_SIZE, CAR_SPEED]
  · norm_num +decide [validDrivingOptions, getTrafficFlow, isRoadAt, tileAt?, cexCar7, cexMap7,
      carTileX, carTileY, carCenter, TILE_SIZE, MAP_WIDTH, MAP_HEIGHT, reverseOf,
      List.findIdx?, List.filter, List.get?]
  · have : (carStep cexMap7 [2] [] cexPlayer7 cexCar7 (1/60) cexRolls7).car.state =
        CarState.DRIVING := by
      norm_num +decide [carStep, cexCar7, cexMap7, cexPlayer7, cexRolls7, carTileX, carTileY,
        carCenter, carDistToCenter, CAR_SPEED, TILE_SIZE, MAP_WIDTH, MAP_HEIGHT, initialPlayer,
        validDrivingOptions, getTrafficFlow, isRoadAt, tileAt?, listGetZ?, jsRandIdx,
        findDrivewayNeighbor, drivewayNeighbors, reverseOf, carAdvance, checkCollision,
        List.get?, List.findIdx?, List.filter, List.find?, MAP_PIXEL_WIDTH, MAP_PIXEL_HEIGHT,
        mkTextPopup, pickText, hitTexts]
    rw [this]
    decide

/-- The map of the C7-amended witness: the road band's top tile (2, 0) has
no valid option at all when heading up (ahead is off-map, and the tile's
down-flow fails the two-tiles-ahead turn rule only when... here the down
option *is* checked against (2,1) and (2,2); to kill every option the car
sits instead at the bottom tile (2, 4) heading down on an up-flow band). -/
def wMap7 : GameMap :=
  [[TileType.GRASS, TileType.GRASS, TileType.ROAD, TileType.ROAD],
   [TileType.GRASS, TileType.GRASS, TileType.ROAD, TileType.ROAD]]

/-- A car at the centre of tile (2, 1) of `wMap7`, heading down.  The band
vRoads = [2, 12] puts column 2 in band 0 (flow down); ahead (2, 2) is
off-map, so no option is valid and the car must park. -/
def wCar7 : Car :=
  { id := "w7", pos := { x := 69, y := 42 }, size := { x := 22, y := 12 },
    velocity := { x := 0, y := 3.5 }, speed := CAR_SPEED, frozenTimer := 0,
    direction := Dir.down, state := CarState.DRIVING, homePos := { x := 11, y := 13 } }

/-- Witness for C7-amended at a concrete dead end. -/
theorem carStep_deadEnd_witness :
    wCar7.frozenTimer ≤ 0 ∧ wCar7.state = CarState.DRIVING ∧
    carDistToCenter wCar7 < wCar7.speed ∧ ¬ ((0.5 : ℚ) < 0.1) ∧
    validDrivingOptions wMap7 [2, 12] [] (carTileX wCar7) (carTileY wCar7) wCar7.direction = [] ∧
    carStep wMap7 [2, 12] [] cexPlayer7 wCar7 (1/60) cexRolls7 =
      { car := { wCar7 with
                 state := CarState.PARKED,
                 pos := wCar7.homePos,
                 velocity := { x := 0, y := 0 } },
        player := cexPlayer7, newPopups := [], halted := false } := by
  have h1 : wCar7.frozenTimer ≤ 0 := by norm_num [wCar7]
  have h2 : wCar7.state = CarState.DRIVING := rfl
  have h3 : carDistToCenter wCar7 < wCar7.speed := by
    norm_num [carDistToCenter, carCenter, carTileX, carTileY, wCar7, TILE_SIZE, CAR_SPEED]
  have h4 : ¬ ((0.5 : ℚ) < 0.1) := by norm_num
  have h5 : validDrivingOptions wMap7 [2, 12] [] (carTileX wCar7) (carTileY wCar7)
      wCar7.direction = [] := by
    norm_num +decide [validDrivingOptions, getTrafficFlow, isRoadAt, tileAt?, wCar7, wMap7,
      carTileX, carTileY, carCenter, TILE_SIZE, MAP_WIDTH, MAP_HEIGHT, reverseOf,
      List.findIdx?, List.filter, List.get?]
  exact ⟨h1, h2, h3, h4, h5,
    carStep_deadEnd wMap7 [2, 12] [] cexPlayer7 wCar7 (1/60) cexRolls7 h1 h2 h3 h4 h5⟩

/-! ## C6 -/

/-- C6: under the band discipline (band starts pairwise at least 2 apart, as
produced by the road generator), `getTrafficFlow` obeys band parity: a tile
whose column lies in vertical band `i` gets vertical flow `down` when `i` is
even and `up` when `i` is odd (first list entry), a tile whose row lies in
horizontal band `j` gets `left` when `j` is even and `right` when `j` is odd
(last entry), and a tile on both a vertical and a horizontal band yields
both options at once. -/
theorem getTrafficFlow_parity (vR hR : List ℤ) (tx ty : ℤ)
    (hv : vR.Pairwise (fun a b => a + 2 ≤ b)) (hh : hR.Pairwise (fun a b => a + 2 ≤ b)) :
    (∀ i v, vR.get? i = some v → (tx = v ∨ tx = v + 1) →
      ∃ hPart, getTrafficFlow tx ty vR hR =
        (if i % 2 = 0 then ({ x := 0, y := 1, d := Dir.down } : Flow)
         else { x := 0, y := -1, d := Dir.up }) :: hPart ∧
        ∀ f ∈ hPart, f.d = Dir.left ∨ f.d = Dir.right) ∧
    (∀ j w, hR.get? j = some w → (ty = w ∨ ty = w + 1) →
      ∃ vPart, getTrafficFlow tx ty vR hR =
        vPart ++ [if j % 2 = 0 then ({ x := -1, y := 0, d := Dir.left } : Flow)
                  else { x := 1, y := 0, d := Dir.right }] ∧
        ∀ f ∈ vPart, f.d = Dir.up ∨ f.d = Dir.down) := by
  constructor
  · intro i v hiv htx
    have hfind := findIdx?_of_pairwise_band hv hiv htx
    cases hcase : hR.findIdx? (fun h => ty == h || ty == h + 1) with
    | none =>
      refine ⟨[], ?_, by simp⟩
      simp only [getTrafficFlow, hfind, hcase]
      split <;> simp
    | some j =>
      refine ⟨[if j % 2 = 0 then ({ x := -1, y := 0, d := Dir.left } : Flow)
               else { x := 1, y := 0, d := Dir.right }], ?_, ?_⟩
      · simp only [getTrafficFlow, hfind, hcase]
        by_cases hj : j % 2 = 0 <;> by_cases hi : i % 2 = 0 <;> simp [hi, hj]
      · intro f hf
        by_cases hj : j % 2 = 0 <;> simp [hj] at hf <;> simp [hf]
  · intro j w hjw hty
    have hfind := findIdx?_of_pairwise_band hh hjw hty
    cases hcase : vR.findIdx? (fun v => tx == v || tx == v + 1) with
    | none =>
      refine ⟨[], ?_, by simp⟩
      simp only [getTrafficFlow, hfind, hcase]
      split <;> simp
    | some i =>
      refine ⟨[if i % 2 = 0 then ({ x := 0, y := 1, d := Dir.down } : Flow)
               else { x := 0, y := -1, d := Dir.up }], ?_, ?_⟩
      · simp only [getTrafficFlow, hfind, hcase]
        by_cases hj : j % 2 = 0 <;> by_cases hi : i % 2 = 0 <;> simp [hi, hj]
      · intro f hf
        by_cases hi : i % 2 = 0 <;> simp [hi] at hf <;> simp [hf]

/-- Witness for C6: bands [2, 12] vertically and horizontally; tile (12, 2)
lies in vertical band 1 (odd: up) and horizontal band 0 (even: left), and
the flow list indeed yields exactly both options. -/
theorem getTrafficFlow_parity_witness :
    ([2, 12] : List ℤ).Pairwise (fun a b => a + 2 ≤ b) ∧
    getTrafficFlow 12 2 [2, 12] [2, 12] =
      [{ x := 0, y := -1, d := Dir.up }, { x := -1, y := 0, d := Dir.left }] := by
  have hp : ([2, 12] : List ℤ).Pairwise (fun a b => a + 2 ≤ b) := by decide
  have h := (getTrafficFlow_parity [2, 12] [2, 12] 12 2 hp hp).1 1 12 rfl (Or.inl rfl)
  obtain ⟨hPart, heq, hmem⟩ := h
  refine ⟨hp, ?_⟩
  decide

/-! ## Phase-effect lemmas -/

lemma checkMove_isWalkable {pos size : Vector2} {m : GameMap} {so : List StaticObject}
    (h : checkMove pos size m so = true) : isWalkable pos size m = true := by
  rw [checkMove, Bool.and_eq_true] at h
  exact h.1

lemma steerPlayer_health (pd : Bool) (p : Player) (dt : ℚ) (input : Input) (o : TickOracle) :
    (steerPlayer pd p dt input o).1.health = p.health := by
  simp only [steerPlayer, apply_ite Prod.fst, apply_ite Player.health, ite_self]

lemma steerPlayer_invuln (pd : Bool) (p : Player) (dt : ℚ) (input : Input) (o : TickOracle) :
    (steerPlayer pd p dt input o).1.invulnerabilityTimer = p.invulnerabilityTimer := by
  simp only [steerPlayer, apply_ite Prod.fst, apply_ite Player.invulnerabilityTimer, ite_self]

lemma steerPlayer_maxHealth (pd : Bool) (p : Player) (dt : ℚ) (input : Input) (o : TickOracle) :
    (steerPlayer pd p dt input o).1.maxHealth = p.maxHealth := by
  simp only [steerPlayer, apply_ite Prod.fst, apply_ite Player.maxHealth, ite_self]

lemma steerPlayer_size (pd : Bool) (p : Player) (dt : ℚ) (input : Input) (o : TickOracle) :
    (steerPlayer pd p dt input o).1.size = p.size := by
  simp only [steerPlayer, apply_ite Prod.fst, apply_ite Player.size, ite_self]

lemma steerPlayer_pos (pd : Bool) (p : Player) (dt : ℚ) (input : Input) (o : TickOracle) :
    (steerPlayer pd p dt input o).1.pos = p.pos := by
  simp only [steerPlayer, apply_ite Prod.fst, apply_ite Player.pos, ite_self]

lemma commitMoves_health (m : GameMap) (so : List StaticObject) (p : Player) (dx dy : ℚ) :
    (commitMoves m so p dx dy).health = p.health := by
  simp only [commitMoves, apply_ite Player.health, ite_self]

lemma commitMoves_invuln (m : GameMap) (so : List StaticObject) (p : Player) (dx dy : ℚ) :
    (commitMoves m so p dx dy).invulnerabilityTimer = p.invulnerabilityTimer := by
  simp only [commitMoves, apply_ite Player.invulnerabilityTimer, ite_self]

lemma commitMoves_maxHealth (m : GameMap) (so : List StaticObject) (p : Player) (dx dy : ℚ) :
    (commitMoves m so p dx dy).maxHealth = p.maxHealth := by
  simp only [commitMoves, apply_ite Player.maxHealth, ite_self]

lemma commitMoves_size (m : GameMap) (so : List StaticObject) (p : Player) (dx dy : ℚ) :
    (commitMoves m so p dx dy).size = p.size := by
  simp only [commitMoves, apply_ite Player.size, ite_self]

lemma commitMoves_buffs (m : GameMap) (so : List StaticObject) (p : Player) (dx dy : ℚ) :
    (commitMoves m so p dx dy).buffs = p.buffs := by
  simp only [commitMoves, apply_ite Player.buffs, ite_self]

lemma steerPlayer_buffs (pd : Bool) (p : Player) (dt : ℚ) (input : Input) (o : TickOracle) :
    (steerPlayer pd p dt input o).1.buffs = p.buffs := by
  simp only [steerPlayer, apply_ite Prod.fst, apply_ite Player.buffs, ite_self]

lemma commitMoves_walkable {m : GameMap} {so : List StaticObject} {p : Player} {dx dy : ℚ}
    (h : isWalkable p.pos p.size m = true) :
    isWalkable (commitMoves m so p dx dy).pos (commitMoves m so p dx dy).size m = true := by
  rw [commitMoves_size]
  simp only [commitMoves, apply_ite Player.pos, ite_self]
  split <;> split <;>
    first
      | (apply checkMove_isWalkable; assumption)
      | exact h

lemma movePlayer_health (m : GameMap) (so : List StaticObject) (pd : Bool) (p : Player)
    (dt : ℚ) (input : Input) (o : TickOracle) :
    (movePlayer m so pd p dt input o).1.health = p.health := by
  simp only [movePlayer]
  rw [commitMoves_health, steerPlayer_health]

lemma movePlayer_invuln (m : GameMap) (so : List StaticObject) (pd : Bool) (p : Player)
    (dt : ℚ) (input : Input) (o : TickOracle) :
    (movePlayer m so pd p dt input o).1.invulnerabilityTimer = p.invulnerabilityTimer := by
  simp only [movePlayer]
  rw [commitMoves_invuln, steerPlayer_invuln]

lemma movePlayer_maxHealth (m : GameMap) (so : List StaticObject) (pd : Bool) (p : Player)
    (dt : ℚ) (input : Input) (o : TickOracle) :
    (movePlayer m so pd p dt input o).1.maxHealth = p.maxHealth := by
  simp only [movePlayer]
  rw [commitMoves_maxHealth, steerPlayer_maxHealth]

lemma movePlayer_size (m : GameMap) (so : List StaticObject) (pd : Bool) (p : Player)
    (dt : ℚ) (input : Input) (o : TickOracle) :
    (movePlayer m so pd p dt input o).1.size = p.size := by
  simp only [movePlayer]
  rw [commitMoves_size, steerPlayer_size]

lemma movePlayer_buffs (m : GameMap) (so : List StaticObject) (pd : Bool) (p : Player)
    (dt : ℚ) (input : Input) (o : TickOracle) :
    (movePlayer m so pd p dt input o).1.buffs = p.buffs := by
  simp only [movePlayer]
  rw [commitMoves_buffs, steerPlayer_buffs]

lemma movePlayer_walkable {m : GameMap} {so : List StaticObject} {pd : Bool} {p : Player}
    {dt : ℚ} {input : Input} {o : TickOracle}
    (h : isWalkable p.pos p.size m = true) :
    isWalkable (movePlayer m so pd p dt input o).1.pos
      (movePlayer m so pd p dt input o).1.size m = true := by
  simp only [movePlayer]
  apply commitMoves_walkable
  rw [steerPlayer_pos, steerPlayer_size]
  exact h

lemma puddleHazard_cases (puds : List Puddle) (roll : ℚ) (p : Player) :
    (puddleHazard puds roll p = (p, [], false)) ∨
    (p.invulnerabilityTimer ≤ 0 ∧
      puddleHazard puds roll p =
        ({ p with health := p.health - 1, invulnerabilityTimer := 2 },
         [mkTextPopup (pickText splashTexts roll)
            ({ p with health := p.health - 1, invulnerabilityTimer := 2 } : Player).pos "#639bff"],
         decide (p.health - 1 ≤ 0))) := by
  rw [puddleHazard]
  split
  · next hcond => right; exact ⟨hcond.2.2.2, rfl⟩
  · left; rfl

lemma playerPhase_spec (m : GameMap) (so : List StaticObject) (puds : List Puddle)
    (pd : Bool) (p : Player) (dt : ℚ) (input : Input) (o : TickOracle) :
    ((playerPhase m so puds pd p dt input o).player.health = p.health ∧
     (playerPhase m so puds pd p dt input o).player.invulnerabilityTimer = p.invulnerabilityTimer ∧
     (playerPhase m so puds pd p dt input o).died = false) ∨
    (p.invulnerabilityTimer ≤ 0 ∧
     (playerPhase m so puds pd p dt input o).player.health = p.health - 1 ∧
     (playerPhase m so puds pd p dt input o).player.invulnerabilityTimer = 2 ∧
     (playerPhase m so puds pd p dt input o).died = decide (p.health - 1 ≤ 0)) := by
  rw [playerPhase]
  split
  · left; exact ⟨rfl, rfl, rfl⟩
  · rcases puddleHazard_cases puds o.splashText
        (movePlayer m so pd p dt input o).1 with hcase | ⟨hinv, hcase⟩
    · left
      simp [hcase, movePlayer_health, movePlayer_invuln]
    · right
      rw [movePlayer_invuln] at hinv
      refine ⟨hinv, ?_, ?_, ?_⟩ <;>
        simp [hcase, movePlayer_health, movePlayer_invuln]

lemma playerPhase_maxHealth (m : GameMap) (so : List StaticObject) (puds : List Puddle)
    (pd : Bool) (p : Player) (dt : ℚ) (input : Input) (o : TickOracle) :
    (playerPhase m so puds pd p dt input o).player.maxHealth = p.maxHealth := by
  rw [playerPhase]
  split
  · rfl
  · rcases puddleHazard_cases puds o.splashText
        (movePlayer m so pd p dt input o).1 with hcase | ⟨_, hcase⟩ <;>
      simp only [hcase, movePlayer_maxHealth]

lemma playerPhase_size (m : GameMap) (so : List StaticObject) (puds : List Puddle)
    (pd : Bool) (p : Player) (dt : ℚ) (input : Input) (o : TickOracle) :
    (playerPhase m so puds pd p dt input o).player.size = p.size := by
  rw [playerPhase]
  split
  · rfl
  · rcases puddleHazard_cases puds o.splashText
        (movePlayer m so pd p dt input o).1 with hcase | ⟨_, hcase⟩ <;>
      simp only [hcase, movePlayer_size]

lemma playerPhase_walkable {m : GameMap} {so : List StaticObject} {puds : List Puddle}
    {pd : Bool} {p : Player} {dt : ℚ} {input : Input} {o : TickOracle}
    (h : isWalkable p.pos p.size m = true) :
    isWalkable (playerPhase m so puds pd p dt input o).player.pos
      (playerPhase m so puds pd p dt input o).player.size m = true := by
  rw [playerPhase]
  split
  · exact h
  · rcases puddleHazard_cases puds o.splashText
        (movePlayer m so pd p dt input o).1 with hcase | ⟨_, hcase⟩ <;>
      simpa only [hcase] using movePlayer_walkable h

lemma timersDecay_spec (p : Player) (dt : ℚ) :
    (timersDecayPhase p dt).health = p.health ∧
    (timersDecayPhase p dt).maxHealth = p.maxHealth ∧
    (timersDecayPhase p dt).pos = p.pos ∧
    (timersDecayPhase p dt).size = p.size ∧
    ((timersDecayPhase p dt).invulnerabilityTimer = p.invulnerabilityTimer ∨
     (timersDecayPhase p dt).invulnerabilityTimer = p.invulnerabilityTimer - dt) ∧
    (0 < p.invulnerabilityTimer →
      (timersDecayPhase p dt).invulnerabilityTimer = p.invulnerabilityTimer - dt) := by
  rw [timersDecayPhase]
  by_cases hinv : p.invulnerabilityTimer > 0
  · rw [if_pos hinv]
    by_cases hbuf : ({ p with invulnerabilityTimer := p.invulnerabilityTimer - dt } : Player).buffs.puddleImmunity > 0
    · rw [if_pos hbuf]; exact ⟨rfl, rfl, rfl, rfl, Or.inr rfl, fun _ => rfl⟩
    · rw [if_neg hbuf]; exact ⟨rfl, rfl, rfl, rfl, Or.inr rfl, fun _ => rfl⟩
  · rw [if_neg hinv]
    by_cases hbuf : p.buffs.puddleImmunity > 0
    · rw [if_pos hbuf]; exact ⟨rfl, rfl, rfl, rfl, Or.inl rfl, fun hlt => absurd hlt hinv⟩
    · rw [if_neg hbuf]; exact ⟨rfl, rfl, rfl, rfl, Or.inl rfl, fun hlt => absurd hlt hinv⟩

lemma carAdvance_player (p : Player) (car : Car) (hit : ℚ) :
    ((carAdvance p car hit).player = p ∧ (carAdvance p car hit).halted = false) ∨
    (p.invulnerabilityTimer ≤ 0 ∧
      (carAdvance p car hit).player = { p with health := p.health - 1, invulnerabilityTimer := 2 } ∧
      (carAdvance p car hit).halted = decide (p.health - 1 ≤ 0)) := by
  simp only [carAdvance]
  repeat' split
  all_goals first
    | (left; exact ⟨rfl, rfl⟩)
    | (rename_i hcond; right; exact ⟨hcond.2.2.2, rfl, rfl⟩)

lemma mergeHit_player (p : Player) (car : Car) (hit : ℚ) :
    ((mergeHit p car hit).player = p ∧ (mergeHit p car hit).halted = false) ∨
    (p.invulnerabilityTimer ≤ 0 ∧
      (mergeHit p car hit).player = { p with health := p.health - 1, invulnerabilityTimer := 2 } ∧
      (mergeHit p car hit).halted = decide (p.health - 1 ≤ 0)) := by
  rw [mergeHit]
  split
  · next hcond => right; exact ⟨hcond.2.2, rfl, rfl⟩
  · left; exact ⟨rfl, rfl⟩

lemma carStep_player (m : GameMap) (vR hR : List ℤ) (p : Player) (car : Car)
    (dt : ℚ) (r : CarRolls) :
    ((carStep m vR hR p car dt r).player = p ∧ (carStep m vR hR p car dt r).halted = false) ∨
    (p.invulnerabilityTimer ≤ 0 ∧
      (carStep m vR hR p car dt r).player = { p with health := p.health - 1, invulnerabilityTimer := 2 } ∧
      (carStep m vR hR p car dt r).halted = decide (p.health - 1 ≤ 0)) := by
  by_cases hf : car.frozenTimer > 0
  · rw [carStep, if_pos hf]; left; exact ⟨rfl, rfl⟩
  · rw [carStep, if_neg hf]
    by_cases h1 : car.state = CarState.PARKED
    · rw [if_pos h1]; left; exact ⟨rfl, rfl⟩
    · rw [if_neg h1]
      by_cases h2 : car.state = CarState.RETURNING
      · rw [if_pos h2]
        left
        refine ⟨?_, ?_⟩ <;>
          simp only [apply_ite CarStepOut.player, apply_ite CarStepOut.halted, ite_self]
      · rw [if_neg h2]
        by_cases h3 : car.state = CarState.MERGING
        · rw [if_pos h3]
          exact mergeHit_player _ _ _
        · rw [if_neg h3]
          by_cases h4 : carDistToCenter car < car.speed
          · rw [if_pos h4]
            by_cases hpeel : r.peel < 0.1
            · rw [if_pos hpeel]
              rcases hfd : findDrivewayNeighbor m (carTileX car) (carTileY car) with _ | n
              · simp only [hfd]
                by_cases hlen : (validDrivingOptions m vR hR (carTileX car) (carTileY car)
                    car.direction).length = 0
                · rw [if_pos hlen]; left; exact ⟨rfl, rfl⟩
                · rw [if_neg hlen]; exact carAdvance_player _ _ _
              · left; simp [hfd]
            · rw [if_neg hpeel]
              by_cases hlen : (validDrivingOptions m vR hR (carTileX car) (carTileY car)
                  car.direction).length = 0
              · rw [if_pos hlen]; left; exact ⟨rfl, rfl⟩
              · rw [if_neg hlen]; exact carAdvance_player _ _ _
          · rw [if_neg h4]
            exact carAdvance_player _ _ _

lemma carsPhaseAux_protected (m : GameMap) (vR hR : List ℤ) (dt : ℚ) (rolls : ℕ → CarRolls) :
    ∀ (cars : List Car) (k : ℕ) (p : Player), 0 < p.invulnerabilityTimer →
      (carsPhaseAux m vR hR dt rolls k p cars).player = p ∧
      (carsPhaseAux m vR hR dt rolls k p cars).halted = false := by
  intro cars
  induction cars with
  | nil => intro k p _; exact ⟨rfl, rfl⟩
  | cons car rest ih =>
    intro k p hp
    rcases carStep_player m vR hR p car dt (rolls k) with ⟨hpl, hh⟩ | ⟨hinv, _, _⟩
    · have htail := ih (k + 1) p hp
      simp only [carsPhaseAux, hh, hpl, Bool.false_eq_true, if_false]
      exact ⟨htail.1, htail.2⟩
    · exact absurd hp (not_lt.mpr hinv)

lemma carsPhase_player (m : GameMap) (vR hR : List ℤ) (dt : ℚ) (rolls : ℕ → CarRolls) :
    ∀ (cars : List Car) (k : ℕ) (p : Player),
      ((carsPhaseAux m vR hR dt rolls k p cars).player = p ∧
       (carsPhaseAux m vR hR dt rolls k p cars).halted = false) ∨
      (p.invulnerabilityTimer ≤ 0 ∧
       (carsPhaseAux m vR hR dt rolls k p cars).player =
         { p with health := p.health - 1, invulnerabilityTimer := 2 } ∧
       (carsPhaseAux m vR hR dt rolls k p cars).halted = decide (p.health - 1 ≤ 0)) := by
  intro cars
  induction cars with
  | nil => intro k p; left; exact ⟨rfl, rfl⟩
  | cons car rest ih =>
    intro k p
    rcases carStep_player m vR hR p car dt (rolls k) with ⟨hpl, hh⟩ | ⟨hinv, hpl, hh⟩
    · rcases ih (k + 1) p with ⟨htail, hhtail⟩ | ⟨hinv, htail, hhtail⟩
      · left
        simp only [carsPhaseAux, hh, hpl, Bool.false_eq_true, if_false]
        exact ⟨htail, hhtail⟩
      · right
        refine ⟨hinv, ?_, ?_⟩ <;>
          simp only [carsPhaseAux, hh, hpl, Bool.false_eq_true, if_false] <;>
          assumption
    · by_cases hd : p.health - 1 ≤ 0
      · have hh' : (carStep m vR hR p car dt (rolls k)).halted = true := by
          rw [hh]; exact decide_eq_true hd
        right
        refine ⟨hinv, ?_, ?_⟩
        · simp [carsPhaseAux, hh', hpl]
        · simp [carsPhaseAux, hh']
          omega
      · have hh' : (carStep m vR hR p car dt (rolls k)).halted = false := by
          rw [hh]; exact decide_eq_false hd
        have hloop := carsPhaseAux_protected m vR hR dt rolls rest (k + 1)
          { p with health := p.health - 1, invulnerabilityTimer := 2 } (by norm_num)
        right
        refine ⟨hinv, ?_, ?_⟩
        · simp only [carsPhaseAux, hh', Bool.false_eq_true, if_false, hpl]
          exact hloop.1
        · simp only [carsPhaseAux, hh', Bool.false_eq_true, if_false, hpl]
          rw [hloop.2]
          exact (decide_eq_false hd).symm

lemma applyPowerUp_player_const (acc : PupAcc) (pup : PowerUp) :
    (applyPowerUp acc pup).player.maxHealth = acc.player.maxHealth ∧
    (applyPowerUp acc pup).player.invulnerabilityTimer = acc.player.invulnerabilityTimer ∧
    (applyPowerUp acc pup).player.pos = acc.player.pos ∧
    (applyPowerUp acc pup).player.size = acc.player.size := by
  rcases pup with ⟨kind, pos, size, life, maxLife⟩
  cases kind <;> simp [applyPowerUp]

lemma applyPowerUp_health (acc : PupAcc) (pup : PowerUp)
    (h : acc.player.health ≤ acc.player.maxHealth) :
    acc.player.health ≤ (applyPowerUp acc pup).player.health ∧
    (applyPowerUp acc pup).player.health ≤ (applyPowerUp acc pup).player.maxHealth := by
  rcases pup with ⟨kind, pos, size, life, maxLife⟩
  cases kind <;> simp [applyPowerUp] <;> omega

lemma applyPowerUp_timer (acc : PupAcc) (pup : PowerUp) :
    (applyPowerUp acc pup).timer = acc.timer ∨
    (applyPowerUp acc pup).timer = min (acc.timer + 10) INITIAL_TIME := by
  rcases pup with ⟨kind, pos, size, life, maxLife⟩
  cases kind <;> simp [applyPowerUp]

lemma pupAux_const (dt : ℚ) : ∀ (pups : List PowerUp) (acc : PupAcc),
    (powerupsPhaseAux dt pups acc).player.maxHealth = acc.player.maxHealth ∧
    (powerupsPhaseAux dt pups acc).player.invulnerabilityTimer = acc.player.invulnerabilityTimer ∧
    (powerupsPhaseAux dt pups acc).player.pos = acc.player.pos ∧
    (powerupsPhaseAux dt pups acc).player.size = acc.player.size := by
  intro pups
  induction pups with
  | nil => intro acc; exact ⟨rfl, rfl, rfl, rfl⟩
  | cons pup rest ih =>
    intro acc
    rw [powerupsPhaseAux]
    split
    · exact ih acc
    · split
      · have h1 := ih (applyPowerUp acc { pup with life := pup.life - dt })
        have h2 := applyPowerUp_player_const acc { pup with life := pup.life - dt }
        exact ⟨h1.1.trans h2.1, h1.2.1.trans h2.2.1, h1.2.2.1.trans h2.2.2.1,
          h1.2.2.2.trans h2.2.2.2⟩
      · exact ih _

lemma pupAux_health (dt : ℚ) : ∀ (pups : List PowerUp) (acc : PupAcc),
    acc.player.health ≤ acc.player.maxHealth →
    acc.player.health ≤ (powerupsPhaseAux dt pups acc).player.health ∧
    (powerupsPhaseAux dt pups acc).player.health ≤ (powerupsPhaseAux dt pups acc).player.maxHealth := by
  intro pups
  induction pups with
  | nil => intro acc h; exact ⟨le_refl _, h⟩
  | cons pup rest ih =>
    intro acc h
    rw [powerupsPhaseAux]
    split
    · exact ih acc h
    · split
      · have hap := applyPowerUp_health acc { pup with life := pup.life - dt } h
        have hrec := ih (applyPowerUp acc { pup with life := pup.life - dt }) hap.2
        exact ⟨hap.1.trans hrec.1, hrec.2⟩
      · exact ih _ h

lemma pupAux_timer_le (dt : ℚ) : ∀ (pups : List PowerUp) (acc : PupAcc),
    acc.timer ≤ INITIAL_TIME → (powerupsPhaseAux dt pups acc).timer ≤ INITIAL_TIME := by
  intro pups
  induction pups with
  | nil => intro acc h; exact h
  | cons pup rest ih =>
    intro acc h
    rw [powerupsPhaseAux]
    split
    · exact ih acc h
    · split
      · refine ih _ ?_
        rcases applyPowerUp_timer acc { pup with life := pup.life - dt } with ht | ht <;> rw [ht]
        · exact h
        · exact min_le_right _ _
      · exact ih _ h

lemma pupAux_timer_pos (dt : ℚ) : ∀ (pups : List PowerUp) (acc : PupAcc),
    0 < acc.timer → 0 < (powerupsPhaseAux dt pups acc).timer := by
  intro pups
  induction pups with
  | nil => intro acc h; exact h
  | cons pup rest ih =>
    intro acc h
    rw [powerupsPhaseAux]
    split
    · exact ih acc h
    · split
      · refine ih _ ?_
        rcases applyPowerUp_timer acc { pup with life := pup.life - dt } with ht | ht <;> rw [ht]
        · exact h
        · exact lt_min (by linarith) (by norm_num [INITIAL_TIME])
      · exact ih _ h

lemma activateCar_shape (s : GameState) (pick : ℚ) :
    ∃ cs, activateCar s pick = { s with entities := { s.entities with cars := cs } } := by
  rw [activateCar]
  by_cases h : (parkedIdxs s.entities.cars).length > 0
  · rw [if_pos h]
    rcases h1 : listGetZ? (parkedIdxs s.entities.cars)
        (jsRandIdx pick (parkedIdxs s.entities.cars).length) with _ | k
    · simp only [h1]; exact ⟨s.entities.cars, rfl⟩
    · simp only [h1]
      rcases h2 : s.entities.cars.get? k with _ | car
      · simp only [h2]; exact ⟨s.entities.cars, rfl⟩
      · simp only [h2]; exact ⟨_, rfl⟩
  · rw [if_neg h]; exact ⟨s.entities.cars, rfl⟩

lemma spawnPowerupPhase_shape (s : GameState) (o : TickOracle) :
    ∃ pus, spawnPowerupPhase s o = { s with entities := { s.entities with powerups := pus } } := by
  rw [spawnPowerupPhase]
  split
  · rcases listGetZ? powerupKinds (jsRandIdx o.pupKind powerupKinds.length) with _ | kind
    · exact ⟨s.entities.powerups, rfl⟩
    · exact ⟨_, rfl⟩
  · exact ⟨s.entities.powerups, rfl⟩

lemma listGetZ?_eq_some {α : Type} {l : List α} {i : ℤ} {a : α}
    (h : listGetZ? l i = some a) : l.get? i.toNat = some a := by
  rw [listGetZ?] at h
  split at h
  · exact h
  · exact absurd h (by simp)

lemma countTargets_set_true_of_all_false :
    ∀ {l : List House}, (∀ h ∈ l, h.isTarget = false) →
    ∀ {j : ℕ} {hj : House}, l.get? j = some hj →
    countTargets (l.set j { hj with isTarget := true }) = 1 := by
  intro l
  induction l with
  | nil => intro _ j hj hget; simp at hget
  | cons a t ih =>
    intro hall j hj hget
    cases j with
    | zero =>
      simp only [List.get?_cons_zero, Option.some.injEq] at hget
      subst hget
      have ht : t.countP (·.isTarget) = 0 :=
        List.countP_eq_zero.mpr (by intro x hx; simp [hall x (List.mem_cons_of_mem _ hx)])
      simp [countTargets, List.countP_cons, ht]
    | succ j =>
      simp only [List.get?_cons_succ] at hget
      have hhead : a.isTarget = false := hall a (List.mem_cons_self a t)
      have := ih (fun x hx => hall x (List.mem_cons_of_mem _ hx)) hget
      simp [countTargets, List.countP_cons, hhead] at this ⊢
      exact this

lemma all_false_after_clear :
    ∀ {l : List House}, countTargets l = 1 →
    ∀ {i : ℕ}, l.findIdx? (·.isTarget) = some i →
    ∀ {hi : House}, l.get? i = some hi →
    ∀ h ∈ l.set i { hi with isTarget := false }, h.isTarget = false := by
  intro l
  induction l with
  | nil => intro _ i hfi; simp [List.findIdx?] at hfi
  | cons a t ih =>
    intro hcount i hfi hi hget
    rw [List.findIdx?_cons] at hfi
    by_cases ha : a.isTarget
    · rw [if_pos (by simp [ha])] at hfi
      simp only [Option.some.injEq] at hfi
      subst hfi
      simp only [List.get?_cons_zero, Option.some.injEq] at hget
      subst hget
      have ht : ∀ x ∈ t, ¬ (x.isTarget = true) := by
        simpa [countTargets, List.countP_cons, ha] using hcount
      intro h hmem
      simp only [List.set_cons_zero] at hmem
      rcases List.mem_cons.mp hmem with rfl | hmem
      · rfl
      · simpa using ht h hmem
    · rw [if_neg (by simp [ha]), List.findIdx?_succ] at hfi
      rcases Option.map_eq_some'.mp hfi with ⟨k, hk, rfl⟩
      simp only [List.get?_cons_succ] at hget
      have hcount' : countTargets t = 1 := by
        simpa [countTargets, List.countP_cons, ha] using hcount
      intro h hmem
      simp only [List.set_cons_succ] at hmem
      rcases List.mem_cons.mp hmem with rfl | hmem
      · simpa using ha
      · exact ih hcount' hk hget h hmem

lemma deliveryPhase_shape (s : GameState) (now : ℚ) (o : TickOracle) (s' : GameState)
    (h : deliveryPhase s now o = some s') :
    s' = s ∨
    ∃ (b : ℚ) (hs : List House) (cs : List Car) (tp : List TextPopup) (pj : List Projectile),
      (b = 2 ∨ b = 2 + 2) ∧
      s' = { s with
        score := s.score + 1,
        deliveries := s.deliveries + 1,
        timer := min (s.timer + b) INITIAL_TIME,
        lastDeliveryTime := now / 1000,
        entities := { s.entities with
          houses := hs,
          cars := cs,
          textPopups := tp,
          projectiles := pj } } := by
  simp only [deliveryPhase] at h
  repeat' split at h
  all_goals try (left; exact (Option.some_inj.mp h).symm)
  all_goals try (exact Option.noConfusion h)
  all_goals
    right
  all_goals
    have hx := (Option.some_inj.mp h).symm
  all_goals
    rcases activateCar_shape _ o.deliverCarPick with ⟨cs, hac⟩
  all_goals
    rw [hac] at hx
  all_goals first
    | exact ⟨2 + 2, _, cs, _, _, Or.inr rfl, hx⟩
    | exact ⟨2, _, cs, _, _, Or.inl rfl, hx⟩

lemma listGetZ?_nonneg {α : Type} {l : List α} {i : ℤ} {a : α}
    (h : listGetZ? l i = some a) : 0 ≤ i := by
  rw [listGetZ?] at h
  split at h
  · assumption
  · exact Option.noConfusion h

lemma deliveryPhase_targets {s : GameState} {now : ℚ} {o : TickOracle} {s' : GameState}
    (h : deliveryPhase s now o = some s')
    (hc : countTargets s.entities.houses = 1) :
    countTargets s'.entities.houses = 1 := by
  simp only [deliveryPhase] at h
  split at h
  · exact (Option.some_inj.mp h) ▸ hc
  · next i hfi =>
    split at h
    · exact (Option.some_inj.mp h) ▸ hc
    · next tgt hget =>
      split at h
      · split at h
        · exact Option.noConfusion h
        · next j hj =>
          split at h
          · exact Option.noConfusion h
          · next nh hnh =>
            obtain ⟨cs, hac⟩ := activateCar_shape _ o.deliverCarPick
            have hs' : s' = _ := (Option.some_inj.mp h).symm
            rw [hac] at hs'
            have hall := all_false_after_clear hc hfi hget
            have hgetj := listGetZ?_eq_some hnh
            have hcount := countTargets_set_true_of_all_false hall hgetj
            rw [hs']
            exact hcount
      · exact (Option.some_inj.mp h) ▸ hc

/-- C1: a tick whose delivery check finds the target house (at index `i`)
within radius 80 of the player — provided the round timer respects its cap,
as every reachable round state does — resolves the delivery: score increases
by exactly 1, the timer never decreases, the old target house is stored
un-flagged, and a house at a different index is stored flagged as the new
target (the retargeting draw succeeding is exactly `deliveryPhase`
completing with `some`). -/
theorem delivery_roundtrip (s : GameState) (now : ℚ) (o : TickOracle) (s' : GameState)
    (i : ℕ) (tgt : House)
    (hfi : s.entities.houses.findIdx? (·.isTarget) = some i)
    (hget : s.entities.houses.get? i = some tgt)
    (hdist : distLt s.entities.player.pos tgt.doorPos 80 = true)
    (htimer : s.timer ≤ INITIAL_TIME)
    (hupd : deliveryPhase s now o = some s') :
    s'.score = s.score + 1 ∧
    s.timer ≤ s'.timer ∧
    s'.entities.houses.get? i = some { tgt with isTarget := false } ∧
    ∃ (j : ℕ) (nh : House), j ≠ i ∧
      s'.entities.houses.get? j = some { nh with isTarget := true } := by
  simp only [deliveryPhase, hfi, hget] at hupd
  rw [if_pos hdist] at hupd
  split at hupd
  · exact Option.noConfusion hupd
  · next j hj =>
    split at hupd
    · exact Option.noConfusion hupd
    · next nh hnh =>
      have hs' : s' = _ := (Option.some_inj.mp hupd).symm
      obtain ⟨cs, hac⟩ := activateCar_shape _ o.deliverCarPick
      rw [hac] at hs'
      have hj0 : 0 ≤ j := listGetZ?_nonneg hnh
      have hgetj := listGetZ?_eq_some hnh
      obtain ⟨hjlen, -⟩ := List.get?_eq_some.mp hgetj
      obtain ⟨hilen, -⟩ := List.get?_eq_some.mp hget
      have hjne : j ≠ (i : ℤ) := by
        rw [findNewTargetIdx] at hj
        have hsome := List.find?_some hj
        exact of_decide_eq_true hsome
      have hne : j.toNat ≠ i := by omega
      refine ⟨?_, ?_, ?_, ?_⟩
      · rw [hs']
      · rw [hs']
        dsimp only
        refine le_min ?_ htimer
        split <;> linarith
      · rw [hs']
        dsimp only
        rw [List.get?_set_ne _ _ hne, List.get?_set_eq_of_lt _ hilen]
      · refine ⟨j.toNat, nh, hne, ?_⟩
        rw [hs']
        dsimp only
        rw [List.get?_set_eq_of_lt _ hjlen]

/-- A two-house fixture for the C1 witness: the target house `wHouse1` sits
at the player's feet, `wHouse2` far away. -/
def wHouse1 : House :=
  { id := "h0", pos := { x := 0, y := 0 }, size := { x := 32, y := 32 },
    facing := Dir.down, isTarget := true,
    doorPos := { x := 0, y := 0 },
    gardenPos := { x := 0, y := 0 }, gardenSize := { x := 0, y := 0 },
    drivewayPos := { x := 0, y := 0 }, drivewaySize := { x := 0, y := 0 },
    roofColor := "", wallColor := "", style := 0,
    shape := HouseShape.rect, cutoutCorner := none }

def wHouse2 : House :=
  { wHouse1 with id := "h1", isTarget := false, doorPos := { x := 500, y := 500 } }

def wState1 : GameState :=
  { isPlaying := true, isGameOver := false, score := 0, timer := 100,
    deliveries := 0, lastDeliveryTime := -100, trafficPauseTimer := 0,
    map := [], vRoads := [], hRoads := [],
    entities :=
      { player := initialPlayer,
        houses := [wHouse1, wHouse2],
        cars := [], puddles := [], powerups := [], particles := [],
        staticObjects := [], textPopups := [], projectiles := [] },
    camera := { x := 0, y := 0 }, gameOverReason := "", prevDash := false }

def wOracle1 : TickOracle :=
  { spawnRoll := 0, carPick := 0, pupRoll := 0, pupKind := 0,
    pupPos := fun _ => (0, 0), dashPartVel := fun _ => (0, 0), splashText := 0,
    targetTape := [0.9], deliverCarPick := 0, projRotation := 0,
    confettiVel := fun _ _ => (0, 0), carRolls := fun _ => ⟨0, 0, 0, 0⟩ }

/-- Witness for C1 at a concrete two-house delivery. -/
theorem delivery_roundtrip_witness :
    ∃ s', deliveryPhase wState1 0 wOracle1 = some s' ∧
      (s'.score = wState1.score + 1 ∧ wState1.timer ≤ s'.timer ∧
       s'.entities.houses.get? 0 = some { wHouse1 with isTarget := false } ∧
       ∃ (j : ℕ) (nh : House), j ≠ 0 ∧
         s'.entities.houses.get? j = some { nh with isTarget := true }) := by
  rcases hEval : deliveryPhase wState1 0 wOracle1 with _ | s'
  · exfalso
    norm_num [deliveryPhase, wState1, wHouse1, wHouse2, initialPlayer, distLt,
      findNewTargetIdx, jsRandIdx, listGetZ?, activateCar, parkedIdxs,
      mkTextPopup, INITIAL_TIME, wOracle1, Function.comp] at hEval
    exact Option.noConfusion hEval
  · exact ⟨s', rfl,
      delivery_roundtrip wState1 0 wOracle1 s' 0 wHouse1 rfl rfl
        (by norm_num [distLt, wState1, wHouse1, initialPlayer])
        (by norm_num [wState1, INITIAL_TIME]) hEval⟩

lemma spawnSegment_shape (s : GameState) (dt : ℚ) (o : TickOracle) :
    ∃ tp cs pus, spawnSegment s dt o =
      { s with trafficPauseTimer := tp,
               entities := { s.entities with cars := cs, powerups := pus } } := by
  have step1 : ∃ tp, (if s.trafficPauseTimer > 0 then
      { s with trafficPauseTimer := s.trafficPauseTimer - dt } else s) =
      { s with trafficPauseTimer := tp } := by
    split
    · exact ⟨_, rfl⟩
    · exact ⟨s.trafficPauseTimer, rfl⟩
  obtain ⟨tp, htp⟩ := step1
  simp only [spawnSegment, htp]
  by_cases hsp : o.spawnRoll <
      spawnChanceOf ({ s with trafficPauseTimer := tp } : GameState).timer
  · rw [if_pos hsp]
    obtain ⟨cs, hcs⟩ := activateCar_shape { s with trafficPauseTimer := tp } o.carPick
    rw [hcs]
    obtain ⟨pus, hpus⟩ := spawnPowerupPhase_shape
      { { s with trafficPauseTimer := tp } with
        entities := { ({ s with trafficPauseTimer := tp } : GameState).entities with cars := cs } } o
    rw [hpus]
    exact ⟨tp, cs, pus, rfl⟩
  · rw [if_neg hsp]
    obtain ⟨pus, hpus⟩ := spawnPowerupPhase_shape { s with trafficPauseTimer := tp } o
    rw [hpus]
    exact ⟨tp, s.entities.cars, pus, rfl⟩

lemma update_cases {s : GameState} {dt : ℚ} {input : Input} {o : TickOracle}
    {now vw vh : ℚ} {s' : GameState}
    (h : update s dt input o now vw vh = some s') :
    ((¬ s.isPlaying = true ∨ s.isGameOver = true) ∧ s' = s) ∨
    (s.isPlaying = true ∧ s.isGameOver = false ∧ s.timer - dt ≤ 0 ∧
      s' = { s with timer := s.timer - dt, isGameOver := true, gameOverReason := "TIMEOUT" }) ∨
    (s.isPlaying = true ∧ s.isGameOver = false ∧ 0 < s.timer - dt ∧
      MainPath s dt input o now vw vh s') := by
  simp only [update] at h
  split at h
  · next h1 => exact Or.inl ⟨h1, (Option.some_inj.mp h).symm⟩
  · next h1 =>
    rw [not_or, not_not] at h1
    obtain ⟨hp, hg⟩ := h1
    have hg' : s.isGameOver = false := by simpa using hg
    split at h
    · next h2 =>
      exact Or.inr (Or.inl ⟨hp, hg', h2, (Option.some_inj.mp h).symm⟩)
    · next h2 =>
      have h3 : 0 < s.timer - dt := lt_of_not_ge fun hle => h2 hle
      refine Or.inr (Or.inr ⟨hp, hg', h3, ?_⟩)
      simp only [MainPath, MainTail]
      split at h
      · next hdied => exact Or.inl ⟨hdied, (Option.some_inj.mp h).symm⟩
      · next hdied =>
        refine Or.inr ⟨by simpa using hdied, ?_⟩
        split at h
        · exact Option.noConfusion h
        · next s7 heq =>
          refine ⟨s7, heq, ?_⟩
          simp only [PostDelivery]
          split at h
          · next hhalt => exact Or.inl ⟨hhalt, (Option.some_inj.mp h).symm⟩
          · next hhalt => exact Or.inr ⟨by simpa using hhalt, (Option.some_inj.mp h).symm⟩

lemma carsPhase_player' (m : GameMap) (vR hR : List ℤ) (cars : List Car) (p : Player)
    (dt : ℚ) (rolls : ℕ → CarRolls) :
    ((carsPhase m vR hR cars p dt rolls).player = p ∧
     (carsPhase m vR hR cars p dt rolls).halted = false) ∨
    (p.invulnerabilityTimer ≤ 0 ∧
     (carsPhase m vR hR cars p dt rolls).player =
       { p with health := p.health - 1, invulnerabilityTimer := 2 } ∧
     (carsPhase m vR hR cars p dt rolls).halted = decide (p.health - 1 ≤ 0)) :=
  carsPhase_player m vR hR dt rolls cars 0 p

lemma deliveryPhase_const {s : GameState} {now : ℚ} {o : TickOracle} {s' : GameState}
    (h : deliveryPhase s now o = some s') :
    s'.entities.player = s.entities.player ∧ s'.isGameOver = s.isGameOver ∧
    s'.gameOverReason = s.gameOverReason ∧ s'.isPlaying = s.isPlaying ∧
    s'.map = s.map ∧ s'.vRoads = s.vRoads ∧ s'.hRoads = s.hRoads ∧
    s'.entities.puddles = s.entities.puddles ∧
    s'.entities.staticObjects = s.entities.staticObjects ∧
    s'.entities.powerups = s.entities.powerups ∧ s'.prevDash = s.prevDash := by
  rcases deliveryPhase_shape s now o s' h with rfl | ⟨b, hl, cs, tp, pj, _, rfl⟩ <;>
    exact ⟨rfl, rfl, rfl, rfl, rfl, rfl, rfl, rfl, rfl, rfl, rfl⟩

lemma deliveryPhase_timer {s : GameState} {now : ℚ} {o : TickOracle} {s' : GameState}
    (h : deliveryPhase s now o = some s') :
    (0 < s.timer → 0 < s'.timer) ∧ (s.timer ≤ INITIAL_TIME → s'.timer ≤ INITIAL_TIME) := by
  rcases deliveryPhase_shape s now o s' h with rfl | ⟨b, hl, cs, tp, pj, hb, rfl⟩
  · exact ⟨id, id⟩
  · dsimp only
    refine ⟨fun h0 => ?_, fun _ => min_le_right _ _⟩
    rcases hb with rfl | rfl
    · exact lt_min (by linarith) (by norm_num [INITIAL_TIME])
    · exact lt_min (by linarith) (by norm_num [INITIAL_TIME])

lemma pupAcc_health (dt : ℚ) (pups : List PowerUp) (p : Player) (timer tpt : ℚ)
    (cars2 : List Car) (hle : p.health ≤ p.maxHealth) (hpos : 0 < p.health) :
    0 < (powerupsPhaseAux dt pups
      { kept := [], player := p, timer := timer, trafficPauseTimer := tpt,
        cars := cars2, newPopups := [] }).player.health ∧
    (powerupsPhaseAux dt pups
      { kept := [], player := p, timer := timer, trafficPauseTimer := tpt,
        cars := cars2, newPopups := [] }).player.health ≤
      (powerupsPhaseAux dt pups
        { kept := [], player := p, timer := timer, trafficPauseTimer := tpt,
          cars := cars2, newPopups := [] }).player.maxHealth ∧
    (powerupsPhaseAux dt pups
      { kept := [], player := p, timer := timer, trafficPauseTimer := tpt,
        cars := cars2, newPopups := [] }).player.maxHealth = p.maxHealth := by
  have h1 := pupAux_health dt pups
    { kept := [], player := p, timer := timer, trafficPauseTimer := tpt,
      cars := cars2, newPopups := [] } hle
  have h2 := pupAux_const dt pups
    { kept := [], player := p, timer := timer, trafficPauseTimer := tpt,
      cars := cars2, newPopups := [] }
  exact ⟨lt_of_lt_of_le hpos h1.1, h1.2, h2.1⟩

lemma postDelivery_health {s7 : GameState} {dt : ℚ} {o : TickOracle} {vw vh : ℚ}
    {s' : GameState}
    (h : PostDelivery s7 dt o vw vh s')
    (hmax : s7.entities.player.health ≤ s7.entities.player.maxHealth)
    (hpos : 0 < s7.entities.player.health) :
    s'.entities.player.maxHealth = s7.entities.player.maxHealth ∧
    0 ≤ s'.entities.player.health ∧
    s'.entities.player.health ≤ s'.entities.player.maxHealth ∧
    ((s'.isGameOver = s7.isGameOver ∧ s'.gameOverReason = s7.gameOverReason ∧
      0 < s'.entities.player.health) ∨
     (s'.isGameOver = true ∧ s'.gameOverReason = "HEALTH")) := by
  simp only [PostDelivery] at h
  rcases h with ⟨hhalt, hs'⟩ | ⟨hhalt, hs'⟩
  · rcases carsPhase_player' s7.map s7.vRoads s7.hRoads s7.entities.cars s7.entities.player dt
        o.carRolls with ⟨hpl, hh⟩ | ⟨hinv, hpl, hh⟩
    · rw [hh] at hhalt; exact absurd hhalt (by simp)
    · subst hs'
      refine ⟨?_, ?_, ?_, Or.inr ⟨rfl, rfl⟩⟩
      · dsimp only; rw [hpl]
      · dsimp only; rw [hpl]; dsimp only; omega
      · dsimp only; rw [hpl]; dsimp only; omega
  · subst hs'
    rcases carsPhase_player' s7.map s7.vRoads s7.hRoads s7.entities.cars s7.entities.player dt
        o.carRolls with ⟨hpl, hh⟩ | ⟨hinv, hpl, hh⟩
    · have ha := pupAcc_health dt s7.entities.powerups
        (carsPhase s7.map s7.vRoads s7.hRoads s7.entities.cars s7.entities.player dt
          o.carRolls).player
        s7.timer s7.trafficPauseTimer
        (carsPhase s7.map s7.vRoads s7.hRoads s7.entities.cars s7.entities.player dt
          o.carRolls).cars
        (by rw [hpl]; exact hmax) (by rw [hpl]; exact hpos)
      have hm : (carsPhase s7.map s7.vRoads s7.hRoads s7.entities.cars s7.entities.player dt
          o.carRolls).player.maxHealth = s7.entities.player.maxHealth := by rw [hpl]
      exact ⟨ha.2.2.trans hm, le_of_lt ha.1, ha.2.1, Or.inl ⟨rfl, rfl, ha.1⟩⟩
    · have hsurv : ¬ (s7.entities.player.health - 1 ≤ 0) := by
        intro hle2
        rw [hh] at hhalt
        simp [hle2] at hhalt
      have ha := pupAcc_health dt s7.entities.powerups
        (carsPhase s7.map s7.vRoads s7.hRoads s7.entities.cars s7.entities.player dt
          o.carRolls).player
        s7.timer s7.trafficPauseTimer
        (carsPhase s7.map s7.vRoads s7.hRoads s7.entities.cars s7.entities.player dt
          o.carRolls).cars
        (by rw [hpl]; dsimp only; omega) (by rw [hpl]; dsimp only; omega)
      have hm : (carsPhase s7.map s7.vRoads s7.hRoads s7.entities.cars s7.entities.player dt
          o.carRolls).player.maxHealth = s7.entities.player.maxHealth := by rw [hpl]
      exact ⟨ha.2.2.trans hm, le_of_lt ha.1, ha.2.1, Or.inl ⟨rfl, rfl, ha.1⟩⟩
lemma mainTail_health {t : GameState} {dt : ℚ} {input : Input} {o : TickOracle}
    {now vw vh : ℚ} {s' : GameState}
    (h : MainTail t dt input o now vw vh s')
    (hmax : t.entities.player.health ≤ t.entities.player.maxHealth)
    (hpos : 0 < t.entities.player.health)
    (hgo : t.isGameOver = false) :
    0 ≤ s'.entities.player.health ∧
    s'.entities.player.health ≤ s'.entities.player.maxHealth ∧
    (s'.isGameOver = false → 0 < s'.entities.player.health) ∧
    (s'.entities.player.health ≤ 0 → s'.isGameOver = true ∧ s'.gameOverReason = "HEALTH") := by
  simp only [MainTail] at h
  rcases h with ⟨hdied, hs'⟩ | ⟨hdied, s7, hdel, hpost⟩
  · rcases playerPhase_spec t.map t.entities.staticObjects t.entities.puddles t.prevDash
        t.entities.player dt input o with ⟨hh, hi, hd⟩ | ⟨hinv, hh, hi, hd⟩
    · rw [hd] at hdied; exact absurd hdied (by simp)
    · subst hs'
      have hm := playerPhase_maxHealth t.map t.entities.staticObjects t.entities.puddles
        t.prevDash t.entities.player dt input o
      refine ⟨?_, ?_, ?_, fun _ => ⟨rfl, rfl⟩⟩
      · dsimp only; rw [hh]; omega
      · dsimp only; rw [hh, hm]; omega
      · intro hfalse; exact Bool.noConfusion hfalse
  · have hm := playerPhase_maxHealth t.map t.entities.staticObjects t.entities.puddles
      t.prevDash t.entities.player dt input o
    have htd := timersDecay_spec (playerPhase t.map t.entities.staticObjects t.entities.puddles
      t.prevDash t.entities.player dt input o).player dt
    have hdc := deliveryPhase_const hdel
    have h7h : s7.entities.player.health = (playerPhase t.map t.entities.staticObjects
        t.entities.puddles t.prevDash t.entities.player dt input o).player.health := by
      rw [hdc.1]; exact htd.1
    have h7m : s7.entities.player.maxHealth = t.entities.player.maxHealth := by
      rw [hdc.1]; exact (htd.2.1).trans hm
    have h7go : s7.isGameOver = false := hdc.2.1.trans hgo
    have h7pos : 0 < s7.entities.player.health ∧
        s7.entities.player.health ≤ s7.entities.player.maxHealth := by
      rcases playerPhase_spec t.map t.entities.staticObjects t.entities.puddles t.prevDash
          t.entities.player dt input o with ⟨hh, hi, hd⟩ | ⟨hinv, hh, hi, hd⟩
      · rw [h7h, hh, h7m]; exact ⟨hpos, hmax⟩
      · have hsurv : 0 < t.entities.player.health - 1 := by
          rw [hd] at hdied
          have := of_decide_eq_false hdied
          omega
        rw [h7h, hh, h7m]
        constructor
        · exact hsurv
        · omega
    obtain ⟨hm', h0', hle', hdisj⟩ := postDelivery_health hpost h7pos.2 h7pos.1
    refine ⟨h0', hle', ?_, ?_⟩
    · intro hg
      rcases hdisj with ⟨_, _, hp'⟩ | ⟨hg', _⟩
      · exact hp'
      · rw [hg'] at hg; exact Bool.noConfusion hg
    · intro hh0
      rcases hdisj with ⟨_, _, hp'⟩ | hgr
      · omega
      · exact hgr

/-- The health invariant maintained by every tick. -/
def HealthInv (s : GameState) : Prop :=
  0 ≤ s.entities.player.health ∧
  s.entities.player.health ≤ s.entities.player.maxHealth ∧
  (s.isGameOver = false → 0 < s.entities.player.health) ∧
  (s.entities.player.health ≤ 0 → s.isGameOver = true ∧ s.gameOverReason = "HEALTH")

lemma healthInv_step {s s' : GameState} (hs : HealthInv s) (hstep : Step s s') :
    HealthInv s' := by
  obtain ⟨dt, input, o, now, vw, vh, hdt0, hdt1, hupd⟩ := hstep
  obtain ⟨h0, hle, hpos, hrs⟩ := hs
  rcases update_cases hupd with ⟨_, rfl⟩ | ⟨hp, hg, ht, rfl⟩ | ⟨hp, hg, ht, hM⟩
  · exact ⟨h0, hle, hpos, hrs⟩
  · refine ⟨h0, hle, ?_, ?_⟩
    · intro hfalse; exact Bool.noConfusion hfalse
    · intro hh0
      have hp2 := hpos hg
      dsimp only at hh0
      omega
  · simp only [MainPath] at hM
    obtain ⟨tp, cs, pus, hseg⟩ := spawnSegment_shape { s with timer := s.timer - dt } dt o
    rw [hseg] at hM
    exact mainTail_health hM hle (hpos hg) hg

lemma healthInv_reachable {s : GameState} (hs : Reachable s) : HealthInv s := by
  induction hs with
  | init o now =>
    refine ⟨?_, ?_, fun _ => ?_, fun habs => ?_⟩
    · show (0:ℤ) ≤ 3
      norm_num
    · show (3:ℤ) ≤ 3
      norm_num
    · show (0:ℤ) < 3
      norm_num
    · have hn : ¬ ((3:ℤ) ≤ 0) := by norm_num
      exact absurd habs hn
  | step hs hstep ih => exact healthInv_step ih hstep

/-- C3: for every reachable round state the player's health lies within
`[0, maxHealth]` (damage subtracts one point at a time and the COFFEE heal
is capped at `maxHealth`), and any tick that leaves the stored health at or
below 0 has ended the round with reason HEALTH within that same tick. -/
theorem health_bounds (s : GameState) (hs : Reachable s) :
    0 ≤ s.entities.player.health ∧
    s.entities.player.health ≤ s.entities.player.maxHealth ∧
    ∀ s', Step s s' → s'.entities.player.health ≤ 0 →
      s'.isGameOver = true ∧ s'.gameOverReason = "HEALTH" := by
  obtain ⟨h0, hle, -, -⟩ := healthInv_reachable hs
  refine ⟨h0, hle, fun s' hstep hh0 => ?_⟩
  obtain ⟨-, -, -, hrs⟩ := healthInv_reachable (Reachable.step hs hstep)
  exact hrs hh0

/-- The all-zero generation oracle: a legal (`ValidRoll`) draw for every
site; its density rolls fail the 0.1 threshold, so no houses are placed. -/
def oZero : InitOracle :=
  { vGap := fun _ => 0, hGap := fun _ => 0, density := fun _ _ => 0,
    shape := fun _ _ => 0, roof := fun _ _ => 0, wall := fun _ _ => 0,
    styleRoll := fun _ _ => 0, pool := fun _ _ => 0, gardenTree := fun _ _ => 0,
    patio := fun _ _ => 0, streetTree := fun _ _ => 0, parkTree := fun _ _ => 0,
    targetPick := 0, puddleDims := fun _ => (0, 0), puddlePos := fun _ _ => (0, 0),
    carSpawn := fun _ => 0 }

/-- Witness for C3 at the freshly initialized round of the all-zero
oracle. -/
theorem health_bounds_witness :
    0 ≤ (initGame oZero 0).entities.player.health ∧
    (initGame oZero 0).entities.player.health ≤ (initGame oZero 0).entities.player.maxHealth ∧
    ∀ s', Step (initGame oZero 0) s' → s'.entities.player.health ≤ 0 →
      s'.isGameOver = true ∧ s'.gameOverReason = "HEALTH" :=
  health_bounds _ (Reachable.init oZero 0)

lemma postDelivery_timer {s7 : GameState} {dt : ℚ} {o : TickOracle} {vw vh : ℚ}
    {s' : GameState}
    (h : PostDelivery s7 dt o vw vh s')
    (hle : s7.timer ≤ INITIAL_TIME) (hpos : 0 < s7.timer) :
    s'.timer ≤ INITIAL_TIME ∧ 0 < s'.timer := by
  simp only [PostDelivery] at h
  rcases h with ⟨hhalt, hs'⟩ | ⟨hhalt, hs'⟩
  · subst hs'; exact ⟨hle, hpos⟩
  · subst hs'
    constructor
    · exact pupAux_timer_le dt _ _ hle
    · exact pupAux_timer_pos dt _ _ hpos

lemma mainTail_timer {t : GameState} {dt : ℚ} {input : Input} {o : TickOracle}
    {now vw vh : ℚ} {s' : GameState}
    (h : MainTail t dt input o now vw vh s')
    (hle : t.timer ≤ INITIAL_TIME) (hpos : 0 < t.timer) :
    s'.timer ≤ INITIAL_TIME ∧ 0 < s'.timer := by
  simp only [MainTail] at h
  rcases h with ⟨hdied, hs'⟩ | ⟨hdied, s7, hdel, hpost⟩
  · subst hs'; exact ⟨hle, hpos⟩
  · have hdt := deliveryPhase_timer hdel
    exact postDelivery_timer hpost (hdt.2 hle) (hdt.1 hpos)

/-- The timer invariant maintained by every tick: the cap holds always, the
timer is positive while the round is live, and a non-positive stored timer
belongs to a TIMEOUT game-over state. -/
def TimerInv (s : GameState) : Prop :=
  s.timer ≤ INITIAL_TIME ∧
  (s.isGameOver = false → 0 < s.timer) ∧
  (s.timer ≤ 0 → s.isGameOver = true ∧ s.gameOverReason = "TIMEOUT")

lemma timerInv_step {s s' : GameState} (hs : TimerInv s) (hstep : Step s s') :
    TimerInv s' := by
  obtain ⟨dt, input, o, now, vw, vh, hdt0, hdt1, hupd⟩ := hstep
  obtain ⟨hle, hpos, htz⟩ := hs
  rcases update_cases hupd with ⟨_, rfl⟩ | ⟨hp, hg, ht, rfl⟩ | ⟨hp, hg, ht, hM⟩
  · exact ⟨hle, hpos, htz⟩
  · refine ⟨?_, ?_, fun _ => ⟨rfl, rfl⟩⟩
    · dsimp only; linarith
    · intro hfalse; exact Bool.noConfusion hfalse
  · simp only [MainPath] at hM
    obtain ⟨tp, cs, pus, hseg⟩ := spawnSegment_shape { s with timer := s.timer - dt } dt o
    rw [hseg] at hM
    have hmt := mainTail_timer hM (by dsimp only; linarith) (by dsimp only; exact ht)
    exact ⟨hmt.1, fun _ => hmt.2, fun h0 => absurd hmt.2 (by linarith)⟩

lemma timerInv_reachable {s : GameState} (hs : Reachable s) : TimerInv s := by
  induction hs with
  | init o now =>
    refine ⟨?_, fun _ => ?_, fun habs => ?_⟩
    · show (INITIAL_TIME : ℚ) ≤ INITIAL_TIME
      exact le_refl _
    · show (0:ℚ) < INITIAL_TIME
      norm_num [INITIAL_TIME]
    · have hn : ¬ ((INITIAL_TIME : ℚ) ≤ 0) := by norm_num [INITIAL_TIME]
      exact absurd habs hn
  | step hs hstep ih => exact timerInv_step ih hstep

/-- A zero tick oracle used by concrete counterexamples. -/
def oTickZero : TickOracle :=
  { spawnRoll := 0, carPick := 0, pupRoll := 0, pupKind := 0,
    pupPos := fun _ => (0, 0), dashPartVel := fun _ => (0, 0), splashText := 0,
    targetTape := [], deliverCarPick := 0, projRotation := 0,
    confettiVel := fun _ _ => (0, 0), carRolls := fun _ => ⟨1, 0, 0, 0⟩ }

/-- A live round in its final fraction of a second. -/
def cexState2 : GameState :=
  { isPlaying := true, isGameOver := false, score := 0, timer := 0.05,
    deliveries := 0, lastDeliveryTime := 0, trafficPauseTimer := 0,
    map := [], vRoads := [], hRoads := [],
    entities :=
      { player := initialPlayer, houses := [], cars := [], puddles := [],
        powerups := [], particles := [], staticObjects := [], textPopups := [],
        projectiles := [] },
    camera := { x := 0, y := 0 }, gameOverReason := "", prevDash := false }

/-- The stored state after the timeout tick of `cexState2`. -/
def cexState2' : GameState :=
  { cexState2 with
    timer := cexState2.timer - 0.1,
    isGameOver := true,
    gameOverReason := "TIMEOUT" }

/-- C2-counterexample: `0 ≤ timer` is not an invariant of the tick.  A
playing state satisfying the claimed bounds steps, with a legal frame delta,
to a stored state whose timer is negative: the timeout branch stores
`timer - dt` without clamping it to 0. -/
theorem timer_nonneg_cex :
    (0:ℚ) ≤ cexState2.timer ∧ cexState2.timer ≤ INITIAL_TIME ∧
    cexState2.isPlaying = true ∧ cexState2.isGameOver = false ∧
    (0:ℚ) ≤ (0.1:ℚ) ∧
    ∃ s', update cexState2 0.1 ⟨0, 0, false⟩ oTickZero 0 0 0 = some s' ∧
      s'.timer < 0 ∧ s'.isGameOver = true ∧ s'.gameOverReason = "TIMEOUT" := by
  refine ⟨by norm_num [cexState2], by norm_num [cexState2, INITIAL_TIME], rfl, rfl,
    by norm_num, ?_⟩
  refine ⟨cexState2', ?_, by norm_num [cexState2', cexState2], rfl, rfl⟩
  norm_num [update, cexState2, cexState2']

/-- C2-amended: for every reachable round state the timer never exceeds
`INITIAL_TIME` and stays positive while the round is live; the tick that
drives it to (or below) 0 ends the round with reason TIMEOUT — but the
stored timer of that game-over state may be negative, so `0 ≤ timer` holds
only for live states. -/
theorem timer_bounds_amended (s : GameState) (hs : Reachable s) :
    s.timer ≤ INITIAL_TIME ∧
    (s.isGameOver = false → 0 < s.timer) ∧
    ∀ s', Step s s' → s'.timer ≤ 0 →
      s'.isGameOver = true ∧ s'.gameOverReason = "TIMEOUT" := by
  obtain ⟨hle, hpos, -⟩ := timerInv_reachable hs
  refine ⟨hle, hpos, fun s' hstep h0 => ?_⟩
  obtain ⟨-, -, htz⟩ := timerInv_reachable (Reachable.step hs hstep)
  exact htz h0

/-- Witness for C2-amended at the freshly initialized round. -/
theorem timer_bounds_amended_witness :
    (initGame oZero 0).timer ≤ INITIAL_TIME ∧
    ((initGame oZero 0).isGameOver = false → 0 < (initGame oZero 0).timer) ∧
    ∀ s', Step (initGame oZero 0) s' → s'.timer ≤ 0 →
      s'.isGameOver = true ∧ s'.gameOverReason = "TIMEOUT" :=
  timer_bounds_amended _ (Reachable.init oZero 0)

lemma housePlacementStep_oZero (park : Block) (st : GameMap × List House) (yx : ℕ × ℕ) :
    housePlacementStep park oZero st yx = st := by
  simp only [housePlacementStep]
  split
  · rfl
  · split
    · split
      · rfl
      · have hd : ¬ (oZero.density yx.2 yx.1 > 0.1) := by norm_num [oZero]
        rw [if_neg hd]
    · rfl

lemma foldl_housePlacementStep_oZero (park : Block) :
    ∀ (l : List (ℕ × ℕ)) (st : GameMap × List House),
      l.foldl (housePlacementStep park oZero) st = st := by
  intro l
  induction l with
  | nil => intro st; rfl
  | cons a t ih =>
    intro st
    rw [List.foldl_cons, housePlacementStep_oZero park st a]
    exact ih st

lemma placeHouses_oZero (park : Block) (m0 : GameMap) :
    (placeHouses park oZero m0).2 = [] := by
  rw [placeHouses, foldl_housePlacementStep_oZero]

set_option maxRecDepth 10000 in
set_option maxHeartbeats 1000000 in
/-- C4-counterexample: a round whose generation places no houses at all
(every density roll of the legal all-zero oracle fails the 10% threshold)
starts PLAYING with zero target houses rather than exactly one — the source
guards the target pick with `houses.length > 0` and proceeds regardless. -/
theorem single_target_cex :
    Reachable (initGame oZero 0) ∧ (initGame oZero 0).isPlaying = true ∧
    countTargets (initGame oZero 0).entities.houses = 0 := by
  refine ⟨Reachable.init oZero 0, rfl, ?_⟩
  show countTargets (pickTarget (placeHouses
      (parkBlockOf (candidateBlocks (mkVRoads oZero) (mkHRoads oZero))) oZero
      (rasterizeRoads blankMap (mkVRoads oZero) (mkHRoads oZero))).2 oZero.targetPick) = 0
  rw [placeHouses_oZero]
  rfl

lemma postDelivery_houses {s7 : GameState} {dt : ℚ} {o : TickOracle} {vw vh : ℚ}
    {s' : GameState} (h : PostDelivery s7 dt o vw vh s') :
    s'.entities.houses = s7.entities.houses := by
  simp only [PostDelivery] at h
  rcases h with ⟨_, rfl⟩ | ⟨_, rfl⟩ <;> rfl

lemma mainTail_targets {t : GameState} {dt : ℚ} {input : Input} {o : TickOracle}
    {now vw vh : ℚ} {s' : GameState} (h : MainTail t dt input o now vw vh s')
    (hc : countTargets t.entities.houses = 1) :
    countTargets s'.entities.houses = 1 := by
  simp only [MainTail] at h
  rcases h with ⟨_, rfl⟩ | ⟨_, s7, hdel, hpost⟩
  · exact hc
  · rw [postDelivery_houses hpost]
    exact deliveryPhase_targets hdel hc

lemma update_targets {s : GameState} {dt : ℚ} {input : Input} {o : TickOracle}
    {now vw vh : ℚ} {s' : GameState}
    (h : update s dt input o now vw vh = some s')
    (hc : countTargets s.entities.houses = 1) :
    countTargets s'.entities.houses = 1 := by
  rcases update_cases h with ⟨_, rfl⟩ | ⟨_, _, _, rfl⟩ | ⟨_, _, _, hM⟩
  · exact hc
  · exact hc
  · simp only [MainPath] at hM
    obtain ⟨tp, cs, pus, hseg⟩ := spawnSegment_shape { s with timer := s.timer - dt } dt o
    rw [hseg] at hM
    exact mainTail_targets hM hc

lemma pickTarget_count {houses : List House} {roll : ℚ}
    (hall : ∀ h ∈ houses, h.isTarget = false) (hlen : 0 < houses.length)
    (hroll : ValidRoll roll) :
    countTargets (pickTarget houses roll) = 1 := by
  have hn : (0:ℚ) < (houses.length : ℚ) := by exact_mod_cast hlen
  have hj0 : 0 ≤ jsRandIdx roll houses.length := by
    rw [jsRandIdx]
    exact Int.floor_nonneg.mpr (mul_nonneg hroll.1 (le_of_lt hn))
  have hjlt : jsRandIdx roll houses.length < (houses.length : ℤ) := by
    rw [jsRandIdx]
    refine Int.floor_lt.mpr ?_
    push_cast
    nlinarith [hroll.2, hn]
  have hlt' : (jsRandIdx roll houses.length).toNat < houses.length := by omega
  have hsome : listGetZ? houses (jsRandIdx roll houses.length) =
      some (houses.get ⟨(jsRandIdx roll houses.length).toNat, hlt'⟩) := by
    rw [listGetZ?, if_pos hj0]
    exact List.get?_eq_get hlt'
  rw [pickTarget, if_pos hlen]
  simp only [hsome]
  exact countTargets_set_true_of_all_false hall (List.get?_eq_get hlt')

/-- C4-amended: the single-target property holds of every round whose
generation produced at least one house — the target pick flags exactly one
house of an all-unflagged nonempty list for any legal roll — and it is
preserved by every completing tick (only the delivery block rewrites
`isTarget`, clearing the unique old flag and setting exactly one new one). -/
theorem single_target_amended (houses : List House) (roll : ℚ)
    (hall : ∀ h ∈ houses, h.isTarget = false) (hlen : 0 < houses.length)
    (hroll : ValidRoll roll)
    (s : GameState) (dt : ℚ) (input : Input) (o : TickOracle) (now vw vh : ℚ)
    (s' : GameState) (hupd : update s dt input o now vw vh = some s')
    (hc : countTargets s.entities.houses = 1) :
    countTargets (pickTarget houses roll) = 1 ∧
    countTargets s'.entities.houses = 1 :=
  ⟨pickTarget_count hall hlen hroll, update_targets hupd hc⟩

/-- A paused copy of the two-house state, for trivially evaluable ticks. -/
def wState4 : GameState := { wState1 with isPlaying := false }

/-- Witness for C4-amended at a concrete one-house pick and a concrete
tick. -/
theorem single_target_amended_witness :
    countTargets (pickTarget [wHouse2] 0) = 1 ∧
    countTargets wState4.entities.houses = 1 :=
  single_target_amended [wHouse2] 0
    (by intro h hm; rcases List.mem_singleton.mp hm with rfl; rfl)
    (by norm_num) ⟨le_refl 0, by norm_num⟩
    wState4 0 ⟨0, 0, false⟩ oTickZero 0 0 0 wState4 rfl rfl

/-- Player records reachable from `p` by repeated runs of the movement
resolver (`movePlayer`: steering plus the two axis-separated test-and-commit
moves) on a fixed map and obstacle set. -/
inductive MoveReach (m : GameMap) (so : List StaticObject) : Player → Player → Prop
  | refl (p : Player) : MoveReach m so p p
  | step {p q : Player} (hpq : MoveReach m so p q) (pd : Bool) (dt : ℚ)
      (input : Input) (o : TickOracle) :
      MoveReach m so p (movePlayer m so pd q dt input o).1

/-- C5: (i) `isWalkable` holds exactly when each of the four corners of the
box projects to an in-bounds tile of kind ROAD; (ii) an axis displacement is
committed only if the resulting box passes the walkability-and-obstacle
test, so a committed position is the old one or a checked one; (iii) along
any chain of movement-resolver steps from a walkable position, every
position stays walkable. -/
theorem walkability_invariant (m : GameMap) (so : List StaticObject) :
    (∀ pos size : Vector2, isWalkable pos size m = true ↔
      ∀ c ∈ cornerPoints pos size,
        (0 ≤ Int.floor (c.x / TILE_SIZE) ∧ Int.floor (c.x / TILE_SIZE) < MAP_WIDTH ∧
         0 ≤ Int.floor (c.y / TILE_SIZE) ∧ Int.floor (c.y / TILE_SIZE) < MAP_HEIGHT) ∧
        tileAt? m (Int.floor (c.x / TILE_SIZE)) (Int.floor (c.y / TILE_SIZE)) =
          some TileType.ROAD) ∧
    (∀ (p : Player) (dx dy : ℚ),
      (commitMoves m so p dx dy).pos = p.pos ∨
      checkMove (commitMoves m so p dx dy).pos p.size m so = true) ∧
    (∀ p q : Player, MoveReach m so p q → isWalkable p.pos p.size m = true →
      isWalkable q.pos q.size m = true) := by
  refine ⟨?_, ?_, ?_⟩
  · intro pos size
    rw [isWalkable, List.all_eq_true]
    constructor
    · intro h c hc
      have hcc := h c hc
      dsimp only at hcc
      split at hcc
      · exact absurd hcc (by simp)
      · next hbnd =>
        push_neg at hbnd
        obtain ⟨h1, h2, h3, h4⟩ := hbnd
        refine ⟨⟨h1, h2, h3, h4⟩, ?_⟩
        split at hcc
        · next heq => exact heq
        · exact absurd hcc (by simp)
    · intro h c hc
      obtain ⟨⟨h1, h2, h3, h4⟩, hroad⟩ := h c hc
      dsimp only
      rw [if_neg (by push_neg; exact ⟨h1, h2, h3, h4⟩)]
      simp only [hroad]
  · intro p dx dy
    simp only [commitMoves]
    by_cases h1 : checkMove { x := p.pos.x + dx, y := p.pos.y } p.size m so = true
    · rw [if_pos h1]
      dsimp only
      by_cases h2 : checkMove { x := p.pos.x + dx, y := p.pos.y + dy } p.size m so = true
      · rw [if_pos h2]; right; exact h2
      · rw [if_neg h2]; right; exact h1
    · rw [if_neg h1]
      by_cases h2 : checkMove { x := p.pos.x, y := p.pos.y + dy } p.size m so = true
      · rw [if_pos h2]; right; exact h2
      · rw [if_neg h2]; left; rfl
  · intro p q hreach hw
    induction hreach with
    | refl => exact hw
    | step hpq pd dt input o ih => exact movePlayer_walkable ih

def wMap5 : GameMap := [[TileType.ROAD]]

def wPlayer5 : Player := { initialPlayer with pos := { x := 4, y := 4 } }

def wPlayer5' : Player := (movePlayer wMap5 [] false wPlayer5 (1/60) ⟨0, 0, false⟩ oTickZero).1

/-- Witness for C5: a concrete walkable start stays walkable across a
movement-resolver step. -/
theorem walkability_invariant_witness :
    isWalkable wPlayer5.pos wPlayer5.size wMap5 = true ∧
    isWalkable wPlayer5'.pos wPlayer5'.size wMap5 = true := by
  have hw : isWalkable wPlayer5.pos wPlayer5.size wMap5 = true := by
    norm_num [isWalkable, cornerPoints, wPlayer5, wMap5, initialPlayer, tileAt?,
      TILE_SIZE, MAP_WIDTH, MAP_HEIGHT, List.all_cons, List.all_nil]
  exact ⟨hw, (walkability_invariant wMap5 []).2.2 wPlayer5 wPlayer5'
    (MoveReach.step (MoveReach.refl wPlayer5) false (1/60) ⟨0, 0, false⟩ oTickZero) hw⟩

lemma pupAcc_protected (dt : ℚ) (pups : List PowerUp) (p : Player) (timer tpt : ℚ)
    (cars2 : List Car) (hle : p.health ≤ p.maxHealth) :
    p.health ≤ (powerupsPhaseAux dt pups
      { kept := [], player := p, timer := timer, trafficPauseTimer := tpt,
        cars := cars2, newPopups := [] }).player.health ∧
    (powerupsPhaseAux dt pups
      { kept := [], player := p, timer := timer, trafficPauseTimer := tpt,
        cars := cars2, newPopups := [] }).player.health ≤
      (powerupsPhaseAux dt pups
        { kept := [], player := p, timer := timer, trafficPauseTimer := tpt,
          cars := cars2, newPopups := [] }).player.maxHealth ∧
    (powerupsPhaseAux dt pups
      { kept := [], player := p, timer := timer, trafficPauseTimer := tpt,
        cars := cars2, newPopups := [] }).player.maxHealth = p.maxHealth ∧
    (powerupsPhaseAux dt pups
      { kept := [], player := p, timer := timer, trafficPauseTimer := tpt,
        cars := cars2, newPopups := [] }).player.invulnerabilityTimer =
      p.invulnerabilityTimer := by
  have h1 := pupAux_health dt pups
    { kept := [], player := p, timer := timer, trafficPauseTimer := tpt,
      cars := cars2, newPopups := [] } hle
  have h2 := pupAux_const dt pups
    { kept := [], player := p, timer := timer, trafficPauseTimer := tpt,
      cars := cars2, newPopups := [] }
  exact ⟨h1.1, h1.2, h2.1, h2.2.1⟩

lemma postDelivery_protected {s7 : GameState} {dt : ℚ} {o : TickOracle} {vw vh : ℚ}
    {s' : GameState}
    (h : PostDelivery s7 dt o vw vh s')
    (hinv : 0 < s7.entities.player.invulnerabilityTimer)
    (hmax : s7.entities.player.health ≤ s7.entities.player.maxHealth) :
    s7.entities.player.health ≤ s'.entities.player.health ∧
    s'.entities.player.health ≤ s'.entities.player.maxHealth ∧
    s'.entities.player.maxHealth = s7.entities.player.maxHealth ∧
    s'.entities.player.invulnerabilityTimer = s7.entities.player.invulnerabilityTimer := by
  simp only [PostDelivery] at h
  rcases h with ⟨hhalt, hs'⟩ | ⟨hhalt, hs'⟩
  · rcases carsPhase_player' s7.map s7.vRoads s7.hRoads s7.entities.cars s7.entities.player dt
        o.carRolls with ⟨hpl, hh⟩ | ⟨hinv2, -, -⟩
    · rw [hh] at hhalt; exact absurd hhalt (by simp)
    · exact absurd hinv (not_lt.mpr hinv2)
  · rcases carsPhase_player' s7.map s7.vRoads s7.hRoads s7.entities.cars s7.entities.player dt
        o.carRolls with ⟨hpl, hh⟩ | ⟨hinv2, -, -⟩
    · subst hs'
      have ha := pupAcc_protected dt s7.entities.powerups s7.entities.player
        s7.timer s7.trafficPauseTimer
        (carsPhase s7.map s7.vRoads s7.hRoads s7.entities.cars s7.entities.player dt
          o.carRolls).cars hmax
      refine ⟨?_, ?_, ?_, ?_⟩ <;> dsimp only <;> rw [hpl]
      · exact ha.1
      · exact ha.2.1
      · exact ha.2.2.1
      · exact ha.2.2.2
    · exact absurd hinv (not_lt.mpr hinv2)

lemma postDelivery_damage {s7 : GameState} {dt : ℚ} {o : TickOracle} {vw vh : ℚ}
    {s' : GameState}
    (h : PostDelivery s7 dt o vw vh s')
    (hmax : s7.entities.player.health ≤ s7.entities.player.maxHealth) :
    (s7.entities.player.health ≤ s'.entities.player.health ∧
     s'.entities.player.invulnerabilityTimer = s7.entities.player.invulnerabilityTimer ∧
     s'.entities.player.health ≤ s'.entities.player.maxHealth) ∨
    (s7.entities.player.invulnerabilityTimer ≤ 0 ∧
     s7.entities.player.health - 1 ≤ s'.entities.player.health ∧
     s'.entities.player.invulnerabilityTimer = 2 ∧
     s'.entities.player.health ≤ s'.entities.player.maxHealth) := by
  simp only [PostDelivery] at h
  rcases h with ⟨hhalt, hs'⟩ | ⟨hhalt, hs'⟩
  · rcases carsPhase_player' s7.map s7.vRoads s7.hRoads s7.entities.cars s7.entities.player dt
        o.carRolls with ⟨hpl, hh⟩ | ⟨hinv2, hpl, hh⟩
    · rw [hh] at hhalt; exact absurd hhalt (by simp)
    · subst hs'
      right
      refine ⟨hinv2, ?_, ?_, ?_⟩
      · dsimp only
        rw [hpl]
      · dsimp only
        rw [hpl]
      · dsimp only
        rw [hpl]
        dsimp only
        omega
  · subst hs'
    rcases carsPhase_player' s7.map s7.vRoads s7.hRoads s7.entities.cars s7.entities.player dt
        o.carRolls with ⟨hpl, hh⟩ | ⟨hinv2, hpl, hh⟩
    · left
      have ha := pupAcc_protected dt s7.entities.powerups s7.entities.player
        s7.timer s7.trafficPauseTimer
        (carsPhase s7.map s7.vRoads s7.hRoads s7.entities.cars s7.entities.player dt
          o.carRolls).cars hmax
      refine ⟨?_, ?_, ?_⟩ <;> dsimp only <;> rw [hpl]
      · exact ha.1
      · exact ha.2.2.2
      · exact ha.2.1
    · right
      have ha := pupAcc_protected dt s7.entities.powerups
        { s7.entities.player with
          health := s7.entities.player.health - 1,
          invulnerabilityTimer := 2 }
        s7.timer s7.trafficPauseTimer
        (carsPhase s7.map s7.vRoads s7.hRoads s7.entities.cars s7.entities.player dt
          o.carRolls).cars (by dsimp only; omega)
      refine ⟨hinv2, ?_, ?_, ?_⟩ <;> dsimp only <;> rw [hpl]
      · exact ha.1
      · exact ha.2.2.2
      · exact ha.2.1
lemma mainTail_protected {t : GameState} {dt : ℚ} {input : Input} {o : TickOracle}
    {now vw vh : ℚ} {s' : GameState}
    (h : MainTail t dt input o now vw vh s') (hdt0 : 0 ≤ dt)
    (hinv : dt < t.entities.player.invulnerabilityTimer)
    (hmax : t.entities.player.health ≤ t.entities.player.maxHealth) :
    t.entities.player.health ≤ s'.entities.player.health ∧
    s'.entities.player.health ≤ s'.entities.player.maxHealth ∧
    s'.entities.player.maxHealth = t.entities.player.maxHealth ∧
    t.entities.player.invulnerabilityTimer - dt ≤ s'.entities.player.invulnerabilityTimer := by
  simp only [MainTail] at h
  have hm := playerPhase_maxHealth t.map t.entities.staticObjects t.entities.puddles
    t.prevDash t.entities.player dt input o
  rcases playerPhase_spec t.map t.entities.staticObjects t.entities.puddles t.prevDash
      t.entities.player dt input o with ⟨hh, hi, hd⟩ | ⟨hinv2, -, -, -⟩
  · rcases h with ⟨hdied, -⟩ | ⟨-, s7, hdel, hpost⟩
    · rw [hd] at hdied; exact absurd hdied (by simp)
    · have htd := timersDecay_spec (playerPhase t.map t.entities.staticObjects
        t.entities.puddles t.prevDash t.entities.player dt input o).player dt
      have hdc := deliveryPhase_const hdel
      have hPinv : 0 < (playerPhase t.map t.entities.staticObjects t.entities.puddles
          t.prevDash t.entities.player dt input o).player.invulnerabilityTimer := by
        rw [hi]; linarith
      have h7inv : s7.entities.player.invulnerabilityTimer =
          t.entities.player.invulnerabilityTimer - dt := by
        rw [hdc.1]
        rw [htd.2.2.2.2.2 hPinv, hi]
      have h7h : s7.entities.player.health = t.entities.player.health := by
        rw [hdc.1]
        exact htd.1.trans hh
      have h7m : s7.entities.player.maxHealth = t.entities.player.maxHealth := by
        rw [hdc.1]
        exact htd.2.1.trans hm
      have hpd := postDelivery_protected hpost (by rw [h7inv]; linarith)
        (by rw [h7h, h7m]; exact hmax)
      refine ⟨?_, hpd.2.1, hpd.2.2.1.trans h7m, ?_⟩
      · rw [← h7h]; exact hpd.1
      · rw [hpd.2.2.2, h7inv]
  · exact absurd hinv2 (by linarith)

lemma mainTail_damage {t : GameState} {dt : ℚ} {input : Input} {o : TickOracle}
    {now vw vh : ℚ} {s' : GameState}
    (h : MainTail t dt input o now vw vh s') (hdt0 : 0 ≤ dt) (hdt1 : dt ≤ 0.1)
    (hmax : t.entities.player.health ≤ t.entities.player.maxHealth)
    (hdam : s'.entities.player.health < t.entities.player.health) :
    s'.entities.player.health = t.entities.player.health - 1 ∧
    2 - dt ≤ s'.entities.player.invulnerabilityTimer ∧
    s'.entities.player.health ≤ s'.entities.player.maxHealth := by
  simp only [MainTail] at h
  have hm := playerPhase_maxHealth t.map t.entities.staticObjects t.entities.puddles
    t.prevDash t.entities.player dt input o
  have htd := timersDecay_spec (playerPhase t.map t.entities.staticObjects
    t.entities.puddles t.prevDash t.entities.player dt input o).player dt
  rcases h with ⟨hdied, hs'⟩ | ⟨hdied, s7, hdel, hpost⟩
  · rcases playerPhase_spec t.map t.entities.staticObjects t.entities.puddles t.prevDash
        t.entities.player dt input o with ⟨hh, hi, hd⟩ | ⟨hinv2, hh, hi, hd⟩
    · rw [hd] at hdied; exact absurd hdied (by simp)
    · subst hs'
      refine ⟨?_, ?_, ?_⟩
      · dsimp only; rw [hh]
      · dsimp only; rw [hi]; linarith
      · dsimp only; rw [hh, hm]; omega
  · have hdc := deliveryPhase_const hdel
    rcases playerPhase_spec t.map t.entities.staticObjects t.entities.puddles t.prevDash
        t.entities.player dt input o with ⟨hh, hi, hd⟩ | ⟨hinv2, hh, hi, hd⟩
    · have h7h : s7.entities.player.health = t.entities.player.health := by
        rw [hdc.1]; exact htd.1.trans hh
      have h7m : s7.entities.player.maxHealth = t.entities.player.maxHealth := by
        rw [hdc.1]; exact htd.2.1.trans hm
      rcases postDelivery_damage hpost (by rw [h7h, h7m]; exact hmax) with
        ⟨hge, hiv, hlem⟩ | ⟨hiv0, hge, hiv, hlem⟩
      · rw [h7h] at hge; omega
      · rw [h7h] at hge
        refine ⟨by omega, ?_, hlem⟩
        rw [hiv]; linarith
    · have h7h : s7.entities.player.health = t.entities.player.health - 1 := by
        rw [hdc.1]; exact htd.1.trans hh
      have h7m : s7.entities.player.maxHealth = t.entities.player.maxHealth := by
        rw [hdc.1]; exact htd.2.1.trans hm
      have hPinv : 0 < (playerPhase t.map t.entities.staticObjects t.entities.puddles
          t.prevDash t.entities.player dt input o).player.invulnerabilityTimer := by
        rw [hi]; norm_num
      have h7inv : s7.entities.player.invulnerabilityTimer = 2 - dt := by
        rw [hdc.1]
        rw [htd.2.2.2.2.2 hPinv, hi]
      rcases postDelivery_damage hpost (by rw [h7h, h7m]; omega) with
        ⟨hge, hiv, hlem⟩ | ⟨hiv0, hge, hiv, hlem⟩
      · rw [h7h] at hge
        refine ⟨by omega, ?_, hlem⟩
        rw [hiv, h7inv]
      · rw [h7inv] at hiv0
        exfalso
        have h01 : (0.1:ℚ) = 1/10 := by norm_num
        rw [h01] at hdt1
        linarith

lemma update_protected {s : GameState} {dt : ℚ} {input : Input} {o : TickOracle}
    {now vw vh : ℚ} {s' : GameState}
    (h : update s dt input o now vw vh = some s') (hdt0 : 0 ≤ dt)
    (hinv : dt < s.entities.player.invulnerabilityTimer)
    (hmax : s.entities.player.health ≤ s.entities.player.maxHealth) :
    s.entities.player.health ≤ s'.entities.player.health ∧
    s'.entities.player.health ≤ s'.entities.player.maxHealth ∧
    s'.entities.player.maxHealth = s.entities.player.maxHealth ∧
    s.entities.player.invulnerabilityTimer - dt ≤ s'.entities.player.invulnerabilityTimer := by
  rcases update_cases h with ⟨-, rfl⟩ | ⟨-, -, -, rfl⟩ | ⟨-, -, -, hM⟩
  · exact ⟨le_refl _, hmax, rfl, by linarith⟩
  · refine ⟨le_refl _, hmax, rfl, ?_⟩
    dsimp only
    linarith
  · simp only [MainPath] at hM
    obtain ⟨tp, cs, pus, hseg⟩ := spawnSegment_shape { s with timer := s.timer - dt } dt o
    rw [hseg] at hM
    have hmt := mainTail_protected hM hdt0 hinv hmax
    exact ⟨hmt.1, hmt.2.1, hmt.2.2.1, hmt.2.2.2⟩

lemma update_damage {s : GameState} {dt : ℚ} {input : Input} {o : TickOracle}
    {now vw vh : ℚ} {s' : GameState}
    (h : update s dt input o now vw vh = some s') (hdt0 : 0 ≤ dt) (hdt1 : dt ≤ 0.1)
    (hmax : s.entities.player.health ≤ s.entities.player.maxHealth)
    (hdam : s'.entities.player.health < s.entities.player.health) :
    s'.entities.player.health = s.entities.player.health - 1 ∧
    2 - dt ≤ s'.entities.player.invulnerabilityTimer ∧
    s'.entities.player.health ≤ s'.entities.player.maxHealth := by
  rcases update_cases h with ⟨-, rfl⟩ | ⟨-, -, -, rfl⟩ | ⟨-, -, -, hM⟩
  · exact absurd hdam (lt_irrefl _)
  · dsimp only at hdam
    exact absurd hdam (lt_irrefl _)
  · simp only [MainPath] at hM
    obtain ⟨tp, cs, pus, hseg⟩ := spawnSegment_shape { s with timer := s.timer - dt } dt o
    rw [hseg] at hM
    have hmt := mainTail_damage hM hdt0 hdt1 hmax hdam
    exact ⟨hmt.1, hmt.2.1, hmt.2.2⟩

/-- One externally driven frame's inputs: delta, input sample, random draws,
wall clock and viewport. -/
structure Tick where
  dt : ℚ
  input : Input
  oracle : TickOracle
  now : ℚ
  vw : ℚ
  vh : ℚ

/-- Run a sequence of frames through `update`, propagating the
does-not-complete case. -/
def runTicks : GameState → List Tick → Option GameState
  | s, [] => some s
  | s, tk :: ts =>
    match update s tk.dt tk.input tk.oracle tk.now tk.vw tk.vh with
    | none => none
    | some s1 => runTicks s1 ts

lemma runTicks_protected :
    ∀ (ticks : List Tick) (s s'' : GameState),
      runTicks s ticks = some s'' →
      (∀ tk ∈ ticks, 0 ≤ tk.dt) →
      (ticks.map Tick.dt).sum < s.entities.player.invulnerabilityTimer →
      s.entities.player.health ≤ s.entities.player.maxHealth →
      s.entities.player.health ≤ s''.entities.player.health := by
  intro ticks
  induction ticks with
  | nil =>
    intro s s'' hrun _ _ _
    obtain rfl := Option.some_inj.mp hrun
    exact le_refl _
  | cons tk ts ih =>
    intro s s'' hrun hdts hsum hmax
    simp only [runTicks] at hrun
    split at hrun
    · exact Option.noConfusion hrun
    · next s1 heq =>
      have hdt0 : 0 ≤ tk.dt := hdts tk (List.mem_cons_self tk ts)
      have hsumts : 0 ≤ (ts.map Tick.dt).sum := by
        refine List.sum_nonneg ?_
        intro x hx
        obtain ⟨tk2, htk2, rfl⟩ := List.mem_map.mp hx
        exact hdts tk2 (List.mem_cons_of_mem _ htk2)
      rw [List.map_cons, List.sum_cons] at hsum
      have hlt : tk.dt < s.entities.player.invulnerabilityTimer := by linarith
      have hup := update_protected heq hdt0 hlt hmax
      have ihs := ih s1 s'' hrun (fun tk2 htk2 => hdts tk2 (List.mem_cons_of_mem _ htk2))
        (by linarith [hup.2.2.2]) hup.2.1
      exact hup.1.trans ihs

/-- C8: a tick that decrements health (a hazard hit) decrements it by
exactly 1 and starts an invulnerability window of at least `2 - dt` seconds;
over any subsequent frame sequence whose total elapsed time stays inside
the remaining window, health never decreases again — so overlapping hazard
contact on every frame of the window yields exactly one decrement. -/
theorem invuln_idempotent
    (s : GameState) (dt : ℚ) (input : Input) (o : TickOracle) (now vw vh : ℚ)
    (s' : GameState) (ticks : List Tick) (s'' : GameState)
    (hdt0 : 0 ≤ dt) (hdt1 : dt ≤ 0.1)
    (hmax : s.entities.player.health ≤ s.entities.player.maxHealth)
    (hupd : update s dt input o now vw vh = some s')
    (hdam : s'.entities.player.health < s.entities.player.health)
    (hticks : ∀ tk ∈ ticks, 0 ≤ tk.dt)
    (hsum : (ticks.map Tick.dt).sum < s'.entities.player.invulnerabilityTimer)
    (hrun : runTicks s' ticks = some s'') :
    s'.entities.player.health = s.entities.player.health - 1 ∧
    2 - dt ≤ s'.entities.player.invulnerabilityTimer ∧
    s'.entities.player.health ≤ s''.entities.player.health := by
  have hd := update_damage hupd hdt0 hdt1 hmax hdam
  exact ⟨hd.1, hd.2.1, runTicks_protected ticks s' s'' hrun hticks hsum hd.2.2⟩
def wPud8 : Puddle := { id := "pud", pos := { x := 0, y := 0 }, size := { x := 20, y := 20 } }

def wOracle8 : TickOracle :=
  { spawnRoll := 0.9, carPick := 0, pupRoll := 0.9, pupKind := 0,
    pupPos := fun _ => (0, 0), dashPartVel := fun _ => (0, 0), splashText := 0,
    targetTape := [], deliverCarPick := 0, projRotation := 0,
    confettiVel := fun _ _ => (0, 0), carRolls := fun _ => ⟨1, 0, 0, 0⟩ }

def wState8 : GameState :=
  { isPlaying := true, isGameOver := false, score := 0, timer := 10,
    deliveries := 0, lastDeliveryTime := 0, trafficPauseTimer := 0,
    map := [[TileType.ROAD]], vRoads := [], hRoads := [],
    entities :=
      { player := { initialPlayer with pos := { x := 4, y := 4 } },
        houses := [], cars := [], puddles := [wPud8], powerups := [], particles := [],
        staticObjects := [], textPopups := [], projectiles := [] },
    camera := { x := 0, y := 0 }, gameOverReason := "", prevDash := false }

set_option maxHeartbeats 2000000 in
/-- Witness for C8: a concrete puddle hit decrements health by exactly one
and opens the invulnerability window; the empty follow-up run keeps it. -/
theorem invuln_idempotent_witness :
    ∃ s', update wState8 0.1 ⟨0, 0, false⟩ wOracle8 0 0 0 = some s' ∧
      (s'.entities.player.health = wState8.entities.player.health - 1 ∧
       2 - 0.1 ≤ s'.entities.player.invulnerabilityTimer ∧
       s'.entities.player.health ≤ s'.entities.player.health) := by
  rcases hEval : update wState8 0.1 ⟨0, 0, false⟩ wOracle8 0 0 0 with _ | s'
  · exfalso
    norm_num [update, spawnSegment, spawnChanceOf, activateCar, parkedIdxs,
      spawnPowerupPhase, playerPhase, movePlayer, steerPlayer, commitMoves, checkMove,
      isWalkable, cornerPoints, tileAt?, checkCollision, puddleHazard, mkTextPopup,
      pickText, splashTexts, listGetZ?, jsRandIdx, timersDecayPhase, deliveryPhase,
      projectilesPhase, carsPhase, carsPhaseAux, powerupsPhaseAux, particlesPhase,
      popupsPhase, cameraPhase, TILE_SIZE, MAP_WIDTH, MAP_HEIGHT, MAP_PIXEL_WIDTH,
      MAP_PIXEL_HEIGHT, INITIAL_TIME, PLAYER_SPEED, wState8, wOracle8, wPud8,
      initialPlayer, Function.comp, List.all_cons, List.all_nil] at hEval
    exact Option.noConfusion hEval
  · have hEval2 := hEval
    norm_num [update, spawnSegment, spawnChanceOf, activateCar, parkedIdxs,
      spawnPowerupPhase, playerPhase, movePlayer, steerPlayer, commitMoves, checkMove,
      isWalkable, cornerPoints, tileAt?, checkCollision, puddleHazard, mkTextPopup,
      pickText, splashTexts, listGetZ?, jsRandIdx, timersDecayPhase, deliveryPhase,
      projectilesPhase, carsPhase, carsPhaseAux, powerupsPhaseAux, particlesPhase,
      popupsPhase, cameraPhase, TILE_SIZE, MAP_WIDTH, MAP_HEIGHT, MAP_PIXEL_WIDTH,
      MAP_PIXEL_HEIGHT, INITIAL_TIME, PLAYER_SPEED, wState8, wOracle8, wPud8,
      initialPlayer, Function.comp, List.all_cons, List.all_nil] at hEval
    subst hEval
    exact ⟨_, rfl, invuln_idempotent wState8 0.1 ⟨0, 0, false⟩ wOracle8 0 0 0 _ [] _
      (by norm_num) (by norm_num) (by norm_num [wState8, initialPlayer]) hEval2
      (by norm_num [wState8, initialPlayer]) (by simp) (by norm_num) rfl⟩

end PixelPostman
